import Mathlib

/-!
# FoxHole connector: NAT traversal and connection orchestration

A shallow embedding of `connector/utils/nat.go`, `connector/utils/stun.go` and the
synchronized-start negotiation of `connector/main.go`.

Modelling conventions.

* Go `[]byte` values are lists of byte values (`List Nat`); an ASCII string literal
  denotes the list of its character codes.
* `time.Duration` is a number of nanoseconds (`Int`).
* Go errors are values of `Err`; `fmt.Errorf("ctx: %w", err)` is `Err.wrap "ctx" err`.
* A function that performs I/O returns its Go result together with the list of the
  I/O calls it made, in order (`Event`).  `fmt.Printf` calls are not recorded.
* The behaviour of the outside world (network, operating system) is a record of
  answers, one for each point of the code's schedule at which it is consulted.
-/

namespace FoxHole

/-! ## Basic data -/

/-- Go `error` values. -/
inductive Err where
  /-- An error reported by the operating system, the network or a library. -/
  | sys (text : String)
  /-- The value of `fmt.Errorf(text)`. -/
  | msg (text : String)
  /-- The value of `fmt.Errorf(ctx + ": %w", inner)`. -/
  | wrap (ctx : String) (inner : Err)
  deriving DecidableEq, Repr

/-- The bytes of an ASCII string literal. -/
def bytes (s : String) : List Nat := s.toList.map Char.toNat

/-- One nanosecond-based `time.Millisecond`. -/
def Millisecond : Int := 1000000

/-- One nanosecond-based `time.Second`. -/
def Second : Int := 1000000000

/-- Go `net.UDPAddr` (IP in its printed form, port as Go `int`). -/
structure UDPAddr where
  IP : String
  Port : Int
  deriving DecidableEq, Repr

/-- The answer to one `conn.Read(buf)`: the bytes that the call has available to
store in `buf` (it stores at most `len(buf)` of them and returns their number as
`n`), and the error. -/
structure ReadOutcome where
  data : List Nat
  err : Option Err
  deriving DecidableEq, Repr

/-- An established TCP connection as seen by `sendHandshake`: what its single
`Write` and its single `Read` answer. -/
structure TCPConn where
  id : Nat
  writeErr : Option Err
  read : ReadOutcome
  deriving DecidableEq, Repr

/-- Go `net.Conn` values handed back by the traversal engine: a TCP connection, or
the `UDPConn` wrapper around a UDP socket and a fixed remote address. -/
inductive Conn where
  | tcp (c : TCPConn)
  | udp (sock : Nat) (remoteAddr : UDPAddr)
  deriving DecidableEq, Repr

/-- The I/O calls made by the traversal engine. -/
inductive Event where
  /-- Call `dialer.Dial("tcp", addr)` with `Dialer.Timeout = timeout`. -/
  | dialTCP (addr : String) (timeout : Int)
  /-- Call `conn.Write(data)` on TCP connection `conn`. -/
  | tcpWrite (conn : Nat) (data : List Nat)
  /-- Call `conn.SetReadDeadline(time.Now().Add(d))` on a TCP connection. -/
  | tcpSetReadDeadline (conn : Nat) (d : Int)
  /-- Call `conn.Read(buf)` with `len(buf) = bufLen`. -/
  | tcpRead (conn : Nat) (bufLen : Nat)
  /-- Call `conn.Close()` on a TCP connection. -/
  | tcpClose (conn : Nat)
  /-- Call `net.ResolveUDPAddr("udp", addr)`. -/
  | resolveUDP (addr : String)
  /-- Call `net.ListenUDP("udp", &net.UDPAddr{IP: ip, Port: port})`. -/
  | listenUDP (ip : String) (port : Int)
  /-- Call `net.ListenUDP("udp", nil)`. -/
  | listenUDPAny
  /-- Call `conn.WriteToUDP(payload, dst)` on UDP socket `sock`. -/
  | udpWrite (sock : Nat) (payload : List Nat) (dst : UDPAddr)
  /-- Call `time.Sleep(d)`. -/
  | sleep (d : Int)
  /-- Call `conn.SetReadDeadline(time.Now().Add(d))` on a UDP socket. -/
  | udpSetReadDeadline (sock : Nat) (d : Int)
  /-- Call `conn.ReadFromUDP(buf)` with `len(buf) = bufLen`. -/
  | udpRead (sock : Nat) (bufLen : Nat)
  /-- Call `conn.Close()` on a UDP socket. -/
  | udpClose (sock : Nat)
  deriving DecidableEq, Repr

/-! ## Handshake (`nat.go`, `sendHandshake`) -/

/-- The literal written by `sendHandshake` (`nat.go:192`) and compared against the
reply (`nat.go:206`). -/
def handshakeToken : List Nat := bytes "FOXHOLE_HANDSHAKE_v1"

/-- The size of the response buffer, `make([]byte, 21)` (`nat.go:200`), which is also
the reply length required by `n != 21` (`nat.go:206`). -/
def handshakeReplyLen : Nat := 21

/-- Model of `NATTraversal.sendHandshake` (`nat.go:191-211`): the returned `error`
(`none` is `nil`) and the calls made on the connection. -/
def sendHandshake (conn : TCPConn) : Option Err × List Event :=
  let handshake := handshakeToken
  match conn.writeErr with
  | some err => (some (Err.wrap "failed to send handshake" err), [Event.tcpWrite conn.id handshake])
  | none =>
    let io := [Event.tcpWrite conn.id handshake, Event.tcpSetReadDeadline conn.id (5 * Second),
      Event.tcpRead conn.id handshakeReplyLen]
    match conn.read.err with
    | some err => (some (Err.wrap "failed to receive handshake response" err), io)
    | none =>
      let response := conn.read.data.take handshakeReplyLen
      let n := response.length
      if n ≠ 21 ∨ response.take n ≠ bytes "FOXHOLE_HANDSHAKE_v1" then
        (some (Err.msg "invalid handshake response"), io)
      else
        (none, io)

/-- The answers of the network to the traversal engine during one run of
`EstablishConnection`. -/
structure Net where
  /-- The outcome of the `attempt`-th TCP dial (0: direct, 1: fallback). -/
  dial : (attempt : Nat) → (addr : String) → (timeout : Int) → Except Err TCPConn
  /-- The outcome of `net.ResolveUDPAddr("udp", addr)`. -/
  resolve : (addr : String) → Except Err UDPAddr
  /-- The outcome of `net.ListenUDP` for the socket opened to probe `target`: the
  socket handle. -/
  bind : (target : UDPAddr) → Except Err Nat
  /-- The outcome of sending probe `i` of round `round` to `target`. -/
  send : (target : UDPAddr) → (round i : Nat) → Option Err
  /-- The outcome of `ReadFromUDP` in the listen window of round `round` on the socket
  probing `target`: an error (deadline exceeded), or the sender address and payload
  of the datagram received. -/
  recv : (target : UDPAddr) → (round : Nat) → Except Err (UDPAddr × List Nat)

/-- The result of a connection strategy together with the I/O it performed. -/
abbrev Run := Except Err Conn × List Event

/-- Model of `NATTraversal.AttemptDirectConnection` (`nat.go:48-66`). -/
def AttemptDirectConnection (net : Net) (remoteAddr : String) (timeout : Int) : Run :=
  match net.dial 0 remoteAddr timeout with
  | .error err => (.error (Err.wrap "direct TCP connection failed" err), [Event.dialTCP remoteAddr timeout])
  | .ok conn =>
    match sendHandshake conn with
    | (some err, io) => (.error err, Event.dialTCP remoteAddr timeout :: io ++ [Event.tcpClose conn.id])
    | (none, io) => (.ok (Conn.tcp conn), Event.dialTCP remoteAddr timeout :: io)

/-- Model of `NATTraversal.attemptTCPConnection` (`nat.go:171-188`). -/
def attemptTCPConnection (net : Net) (remoteAddr : String) (timeout : Int) : Run :=
  match net.dial 1 remoteAddr timeout with
  | .error err => (.error (Err.wrap "TCP connection failed" err), [Event.dialTCP remoteAddr timeout])
  | .ok conn =>
    match sendHandshake conn with
    | (some err, io) => (.error err, Event.dialTCP remoteAddr timeout :: io ++ [Event.tcpClose conn.id])
    | (none, io) => (.ok (Conn.tcp conn), Event.dialTCP remoteAddr timeout :: io)

/-! ## UDP hole punching (`nat.go`) -/

/-- The probe loop `for i := 0; i < probeCount; i++` of one round (`nat.go:128-144`),
entered at index `i` with `remaining = probeCount - i` iterations to go: the error
of a failed send (after which the socket is closed), and the calls made. -/
def sendProbes (net : Net) (sock : Nat) (raddr : UDPAddr) (round : Nat) :
    (remaining i : Nat) → Option Err × List Event
  | 0, _ => (none, [])
  | remaining + 1, i =>
    let probe := bytes ("HOLE_PUNCH_PROBE_R" ++ toString round ++ "_P" ++ toString i)
    match net.send raddr round i with
    | some err =>
      (some (Err.wrap "failed to send probe" err), [Event.udpWrite sock probe raddr, Event.udpClose sock])
    | none =>
      let baseInterval := 200 * Millisecond
      let interval := baseInterval + ((i : Int) * 10) * Millisecond
      let interval := if interval > 500 * Millisecond then 500 * Millisecond else interval
      let rest := sendProbes net sock raddr round remaining (i + 1)
      (rest.1, Event.udpWrite sock probe raddr :: Event.sleep interval :: rest.2)

/-- The round loop `for round := 1; round <= rounds; round++` of
`attemptHolePunchingOnPort` (`nat.go:121-167`), entered at `round` with
`remaining = rounds + 1 - round` iterations to go, followed by the code after the
loop. -/
def punchRounds (net : Net) (sock : Nat) (raddr : UDPAddr) (rounds : Nat) :
    (remaining round : Nat) → Run
  | 0, _ =>
    (.error (Err.msg ("no response from peer after " ++ toString rounds ++ " rounds")),
      [Event.udpClose sock])
  | remaining + 1, round =>
    let probeCount := 10 + (round * 5)
    match sendProbes net sock raddr round probeCount 0 with
    | (some err, io) => (.error err, io)
    | (none, io) =>
      let roundTimeout := 3 * Second
      let listen := [Event.udpSetReadDeadline sock roundTimeout, Event.udpRead sock 1024]
      match net.recv raddr round with
      | .ok (peerAddr, _) => (.ok (Conn.udp sock peerAddr), io ++ listen)
      | .error _ =>
        let pause := if round < rounds then [Event.sleep (1 * Second)] else []
        let rest := punchRounds net sock raddr rounds remaining (round + 1)
        (rest.1, io ++ listen ++ pause ++ rest.2)

/-- Model of `NATTraversal.attemptHolePunchingOnPort` (`nat.go:104-168`).  The
`timeout` parameter is not used by the body, as in the source. -/
def attemptHolePunchingOnPort (net : Net) (raddr : UDPAddr) (_timeout : Int) : Run :=
  match net.bind raddr with
  | .error err =>
    (.error (Err.wrap "failed to bind UDP socket" err), [Event.listenUDP "0.0.0.0" 0])
  | .ok sock =>
    let rounds := 3
    let r := punchRounds net sock raddr rounds rounds 1
    (r.1, Event.listenUDP "0.0.0.0" 0 :: r.2)

/-- The offsets tried by `performHolePunching` (`nat.go:78`). -/
def portOffsets : List Int := [0, 1, -1, 2, -2, 3, -3]

/-- The loop `for _, offset := range portOffsets` of `performHolePunching`
(`nat.go:80-100`) over the offsets still to try, followed by the code after the
loop.  The callee `nt.attemptHolePunchingOnPort(raddrWithOffset, timeout)` is the
parameter `attempt`. -/
def tryOffsets (attempt : UDPAddr → Run) (raddr : UDPAddr) : List Int → Run
  | [] => (.error (Err.msg "all port combinations failed"), [])
  | offset :: rest =>
    let targetPort := raddr.Port + offset
    if targetPort < 1024 ∨ targetPort > 65535 then
      tryOffsets attempt raddr rest
    else
      let raddrWithOffset : UDPAddr := { IP := raddr.IP, Port := targetPort }
      match attempt raddrWithOffset with
      | (.ok conn, io) => (.ok conn, io)
      | (.error _, io) =>
        let more := tryOffsets attempt raddr rest
        (more.1, io ++ more.2)

/-- Model of `NATTraversal.performHolePunching` (`nat.go:70-101`). -/
def performHolePunching (net : Net) (remoteAddr : String) (timeout : Int) : Run :=
  match net.resolve remoteAddr with
  | .error err =>
    (.error (Err.wrap "failed to resolve remote address" err), [Event.resolveUDP remoteAddr])
  | .ok raddr =>
    let r := tryOffsets (fun target => attemptHolePunchingOnPort net target timeout) raddr portOffsets
    (r.1, Event.resolveUDP remoteAddr :: r.2)

/-! ## The strategy ladder (`nat.go`, `EstablishConnection`) -/

/-- The control flow of `EstablishConnection` (`nat.go:26-44`) over the outcomes of
its three callees: the I/O of a callee is part of the result only if the callee is
called. -/
def EstablishConnectionWith (direct punch fallback : Run) : Run :=
  match direct with
  | (.ok conn, io) => (.ok conn, io)
  | (.error _, io) =>
    match punch with
    | (.ok conn, io2) => (.ok conn, io ++ io2)
    | (.error _, io2) => (fallback.1, io ++ io2 ++ fallback.2)

/-- Two's-complement wrap-around of Go `int64` arithmetic. -/
def wrap64 (x : Int) : Int := (x + 2 ^ 63) % 2 ^ 64 - 2 ^ 63

/-- Model of `NATTraversal.EstablishConnection` (`nat.go:22-45`). -/
def EstablishConnection (net : Net) (remoteAddr : String) (timeoutSec : Int) : Run :=
  let timeout := wrap64 (timeoutSec * Second)
  EstablishConnectionWith (AttemptDirectConnection net remoteAddr timeout)
    (performHolePunching net remoteAddr timeout) (attemptTCPConnection net remoteAddr timeout)

/-! ## Synchronized-start negotiation (`main.go`) -/

/-- The proposal message, `fmt.Sprintf("HOLE_PUNCH_START_TIME_%d", startTime)`
(`main.go:310`, `main.go:398`). -/
def startTimeMsg (startTime : Int) : String :=
  "HOLE_PUNCH_START_TIME_" ++ toString startTime

/-- Go `strings.Contains(s, substr)`. -/
def stringsContains (s substr : List Char) : Bool :=
  s.tails.any (fun t => substr.isPrefixOf t)

/-- Go `strings.Split(s, sep)` for a one-character separator: the pieces of `s`
between the occurrences of `sep` (one more piece than there are occurrences). -/
def stringsSplit (sep : Char) : List Char → List (List Char)
  | [] => [[]]
  | c :: cs =>
    if c = sep then
      [] :: stringsSplit sep cs
    else
      match stringsSplit sep cs with
      | [] => [[c]]
      | piece :: pieces => (c :: piece) :: pieces

/-- The digit loop of Go `strconv.ParseUint(s, 10, 64)`: the value of a string of
decimal digits, `none` for any other character. -/
def parseDigits (acc : Nat) : List Char → Option Nat
  | [] => some acc
  | c :: cs =>
    if '0' ≤ c ∧ c ≤ '9' then parseDigits (acc * 10 + (c.toNat - '0'.toNat)) cs else none

/-- Go `strconv.ParseInt(s, 10, 64)`: `none` is a non-nil error (syntax or range). -/
def ParseInt (s : List Char) : Option Int :=
  match s with
  | [] => none
  | c :: rest =>
    let neg := c = '-'
    let digits := if c = '+' ∨ c = '-' then rest else s
    match digits with
    | [] => none
    | _ :: _ =>
      match parseDigits 0 digits with
      | none => none
      | some un =>
        if ¬ neg ∧ un ≥ 2 ^ 63 then none
        else if neg ∧ un > 2 ^ 63 then none
        else some (if neg then -(un : Int) else (un : Int))

/-- The body of the listening goroutine's loop for one received message
(`main.go:329-337`, `main.go:417-425`): `some t` when `t` is sent on `timeReceived`,
`none` when the loop goes round again. -/
def proposalFromMessage (msg : String) : Option Int :=
  if stringsContains msg.toList "HOLE_PUNCH_START_TIME_".toList then
    let parts := stringsSplit '_' msg.toList
    if parts.length ≥ 4 then
      ParseInt (parts.getD 3 [])
    else none
  else none

/-- The listening goroutine (`main.go:322-339`, `main.go:410-427`) over the answers
that the successive `ListenMessages(config.ID, 1)` calls give during the 8-second
wait: the value it sends on `timeReceived` in that time, if any. -/
def listenForProposal : List (Except Err String) → Option Int
  | [] => none
  | .error _ :: rest => listenForProposal rest
  | .ok msg :: rest =>
    match proposalFromMessage msg with
    | some t => some t
    | none => listenForProposal rest

/-- The `select` of `runConnector` (`main.go:342-351`): `wait` is `some peerTime` when
`peerTime` is received from `timeReceived`, and `none` when `time.After(timeTimeout)`
fires.  The value is `startTime` after the `select`. -/
def runConnector_select (startTime : Int) (wait : Option Int) : Int :=
  match wait with
  | some peerTime => if peerTime > startTime then peerTime else startTime
  | none => startTime

/-- The `select` of `handleIncomingConnection` (`main.go:430-439`), as
`runConnector_select`. -/
def handleIncomingConnection_select (startTime : Int) (wait : Option Int) : Int :=
  match wait with
  | some peerTime => if peerTime > startTime then peerTime else startTime
  | none => startTime

/-- The negotiation of `runConnector` (`main.go:318-351`): the goroutine feeds the
`select`. -/
def runConnector_negotiate (startTime : Int) (answers : List (Except Err String)) : Int :=
  runConnector_select startTime (listenForProposal answers)

/-- The negotiation of `handleIncomingConnection` (`main.go:406-439`). -/
def handleIncomingConnection_negotiate (startTime : Int) (answers : List (Except Err String)) : Int :=
  handleIncomingConnection_select startTime (listenForProposal answers)

/-! ## Public address discovery (`stun.go`) -/

/-- The answers of the operating system, the network and the `pion/stun` library to
one call of `GetPublicAddressOnPort`. -/
structure StunNet where
  /-- The outcome of `net.ListenUDP("udp", laddr)`; `laddr = none` is `nil`. -/
  bind : (laddr : Option UDPAddr) → Except Err Nat
  /-- The outcome of `net.ResolveUDPAddr("udp", s.server)`. -/
  resolve : (server : String) → Except Err UDPAddr
  /-- The raw request built by `stun.MustBuild(stun.TransactionID, stun.BindingRequest)`. -/
  request : List Nat
  /-- The outcome of `udpConn.WriteToUDP(message.Raw, serverAddr)`. -/
  send : Option Err
  /-- The outcome of `udpConn.ReadFromUDP(response)`: an error, or `response[:n]`. -/
  recv : Except Err (List Nat)
  /-- The outcome of `msg.Decode()` on the raw response. -/
  decode : (raw : List Nat) → Option Err
  /-- The outcome of `xorAddr.GetFrom(msg)`: an error, or the address read from the
  XOR-MAPPED-ADDRESS attribute of the message. -/
  getXorMapped : (raw : List Nat) → Except Err UDPAddr
  /-- The outcome of `addr.GetFrom(msg)`: an error, or the address read from the
  MAPPED-ADDRESS attribute of the message. -/
  getMapped : (raw : List Nat) → Except Err UDPAddr

/-- Go conversion `uint16(x)` of an `int`. -/
def uint16 (x : Int) : Int := x % 65536

/-- The part of `GetPublicAddressOnPort` after a successful decode
(`stun.go:76-92`): attribute selection. -/
def selectAddress (w : StunNet) (raw : List Nat) : Except Err (String × Int) :=
  match w.getXorMapped raw with
  | .error _ =>
    match w.getMapped raw with
    | .error err => .error (Err.wrap "no address in STUN response" err)
    | .ok addr => .ok (addr.IP, uint16 addr.Port)
  | .ok xorAddr => .ok (xorAddr.IP, uint16 xorAddr.Port)

/-- Model of `STUNClient.GetPublicAddressOnPort` (`stun.go:28-93`) for a client whose
`server` field is `server`.  The deferred `udpConn.Close()` is the last call on every
path after a successful bind. -/
def GetPublicAddressOnPort (w : StunNet) (server : String) (localPort : Int) :
    Except Err (String × Int) × List Event :=
  let laddr : Option UDPAddr :=
    if localPort = 0 then none else some { IP := "0.0.0.0", Port := localPort }
  let listen : Event :=
    if localPort = 0 then Event.listenUDPAny else Event.listenUDP "0.0.0.0" localPort
  match w.bind laddr with
  | .error err => (.error (Err.wrap "failed to create UDP socket" err), [listen])
  | .ok udpConn =>
    match w.resolve server with
    | .error err =>
      (.error (Err.wrap "failed to resolve server address" err),
        [listen, Event.resolveUDP server, Event.udpClose udpConn])
    | .ok serverAddr =>
      let sent := [listen, Event.resolveUDP server, Event.udpWrite udpConn w.request serverAddr]
      match w.send with
      | some err => (.error (Err.wrap "failed to send STUN request" err), sent ++ [Event.udpClose udpConn])
      | none =>
        let io := sent ++ [Event.udpSetReadDeadline udpConn (5 * Second), Event.udpRead udpConn 1024,
          Event.udpClose udpConn]
        match w.recv with
        | .error err => (.error (Err.wrap "failed to read STUN response" err), io)
        | .ok raw =>
          match w.decode raw with
          | some err => (.error (Err.wrap "failed to decode STUN response" err), io)
          | none => (selectAddress w raw, io)

/-- Model of `STUNClient.GetPublicAddress` (`stun.go:23-25`). -/
def GetPublicAddress (w : StunNet) (server : String) : Except Err (String × Int) × List Event :=
  GetPublicAddressOnPort w server 0

/-- Go `strings.Replace(s, old, new, 1)` for a non-empty `old`: the leftmost
occurrence of `old` in `s` is replaced by `new`; `s` is returned when there is none. -/
def stringsReplaceFirst (old new : List Char) : List Char → List Char
  | [] => []
  | c :: cs =>
    if old.isPrefixOf (c :: cs) then new ++ (c :: cs).drop old.length
    else c :: stringsReplaceFirst old new cs

/-- The alternate server computed by `DetectNATType` (`stun.go:131-135`) for a client
whose `server` field is `server`. -/
def altServerFor (server : String) : String :=
  let altServer : String :=
    String.mk (stringsReplaceFirst "stun.l.google.com".toList "stun1.l.google.com".toList
      server.toList)
  if altServer = server then "stun2.l.google.com:19302" else altServer

/-- The comparison at the end of `DetectNATType` (`stun.go:128`, `stun.go:147-155`):
both addresses are formatted with `fmt.Sprintf("%s:%d", ip, port)` and the strings
are compared. -/
def classifyNAT (ip1 : String) (port1 : Int) (ip2 : String) (port2 : Int) : String :=
  let addr1 := ip1 ++ ":" ++ toString port1
  let addr2 := ip2 ++ ":" ++ toString port2
  if addr1 = addr2 then "open" else "restricted"

/-- Model of `STUNClient.DetectNATType` (`stun.go:121-156`) for a client whose `server`
field is `server`; `worlds k` holds the answers to the `k`-th address query that the
function makes (0: primary server, 1: alternate server, 2: the retry on the primary
server). -/
def DetectNATType (worlds : Nat → StunNet) (server : String) : Except Err String × List Event :=
  let q1 := GetPublicAddress (worlds 0) server
  match q1.1 with
  | .error err => (.error err, q1.2)
  | .ok (ip1, port1) =>
    let altServer := altServerFor server
    let q2 := GetPublicAddress (worlds 1) altServer
    match q2.1 with
    | .ok (ip2, port2) => (.ok (classifyNAT ip1 port1 ip2 port2), q1.2 ++ q2.2)
    | .error _ =>
      let q3 := GetPublicAddress (worlds 2) server
      match q3.1 with
      | .error err => (.error err, q1.2 ++ q2.2 ++ q3.2)
      | .ok (ip2, port2) => (.ok (classifyNAT ip1 port1 ip2 port2), q1.2 ++ q2.2 ++ q3.2)

/-! ## Signaling (`exchange.go`) and the listener role (`main.go`) -/

/-- Go `utils.ConnectionInfo` (`exchange.go:10-16`). -/
structure ConnectionInfo where
  ID : String
  IP : String
  Port : Int
  LocalIP : String
  LocalPort : Int
  deriving DecidableEq, Repr

/-- The calls made on the signaling channel. -/
inductive SignalCall where
  /-- Call `ListenMessages(id, timeoutSec)`. -/
  | listen (id : String) (timeoutSec : Int)
  deriving DecidableEq, Repr

/-- Go `int(d.Seconds())` for a `time.Duration` `d` (`exchange.go:88`).  `Seconds`
returns `float64(d / Second) + float64(d % Second) / 1e9` and the conversion
truncates toward zero; the model is the truncated quotient `d / Second`, which is the
value of that expression for every duration shorter than 2^22 seconds (there the sum
cannot round up to the next whole number).  For much longer durations the `float64`
sum can round up to the next whole number, which the model does not follow; the
model is used at 30 nanoseconds and at 30 seconds only. -/
def durationSeconds (d : Int) : Int := Int.tdiv d Second

/-- Model of `Exchanger.ListenForConnectionInfo` (`exchange.go:86-103`).  The signaling
operation `ListenMessages` and `json.Unmarshal` are the parameters `listen` and
`unmarshal`. -/
def ListenForConnectionInfo (listen : String → Int → Except Err String)
    (unmarshal : String → Except Err ConnectionInfo) (listenerID : String) (timeout : Int) :
    Except Err ConnectionInfo × List SignalCall :=
  let timeoutSec := durationSeconds timeout
  match listen listenerID timeoutSec with
  | .error err => (.error (Err.wrap "failed to listen via Nostr" err), [SignalCall.listen listenerID timeoutSec])
  | .ok message =>
    match unmarshal message with
    | .error err =>
      (.error (Err.wrap "failed to parse incoming connection info" err),
        [SignalCall.listen listenerID timeoutSec])
    | .ok info => (.ok info, [SignalCall.listen listenerID timeoutSec])

/-- The wait of `handleIncomingConnection` for the connector's address
(`main.go:386-387`): `exchanger.ListenForConnectionInfo(config.ID, 30)`, where the
constant `30` has type `time.Duration`. -/
def handleIncomingConnection_listen (listen : String → Int → Except Err String)
    (unmarshal : String → Except Err ConnectionInfo) (configID : String) :
    Except Err ConnectionInfo × List SignalCall :=
  ListenForConnectionInfo listen unmarshal configID 30

/-- The text sent by `handleWireGuardConnection` (`main.go:504-519`) for
`connInfo.IP = ip`. -/
def wgConfig (ip : String) : String :=
  "To connect to WireGuard:\n1. Install WireGuard on your system\n2. Use this configuration:\n\n" ++
  "[Interface]\nPrivateKey = <your-private-key>\nAddress = 10.0.0.2/24\n\n" ++
  "[Peer]\nPublicKey = <server-public-key>\nEndpoint = " ++ ip ++
  ":51820  # Standard WireGuard port - adjust if different\nAllowedIPs = 0.0.0.0/0\n\n" ++
  "Replace the placeholders with actual values from your WireGuard server.\n" ++
  "Note: The WireGuard server must be accessible at the endpoint above.\n" ++
  "If both you and the server are behind NATs, port forwarding is required."

/-- A connection as seen by `handleWireGuardConnection`: the answer to its `Write`,
and the number of `Read` calls that succeed before one fails. -/
structure AcceptedConn where
  id : Nat
  writeErr : Option Err
  reads : Nat
  deriving DecidableEq, Repr

/-- Model of `handleWireGuardConnection` (`main.go:498-541`): the calls made on the
connection, the deferred `Close` last. -/
def handleWireGuardConnection (conn : AcceptedConn) (connInfoIP : String) : List Event :=
  let wg := bytes (wgConfig connInfoIP)
  match conn.writeErr with
  | some _ => [Event.tcpWrite conn.id wg, Event.tcpClose conn.id]
  | none =>
    Event.tcpWrite conn.id wg ::
      (List.replicate (conn.reads + 1) (Event.tcpRead conn.id 1024) ++ [Event.tcpClose conn.id])

/-- The accepting part of `handleIncomingConnection` (`main.go:483-492`): the calls
made on the connection returned by `listener.Accept()`, which is handed to
`handleWireGuardConnection`. -/
def handleIncomingConnection_accept (accepted : Except Err AcceptedConn) (connInfoIP : String) :
    List Event :=
  match accepted with
  | .error _ => []
  | .ok conn => handleWireGuardConnection conn connInfoIP

/-! ## Observations on a run and sample inputs -/

/-- The number of TCP dial attempts among the calls `io`. -/
def tcpDialAttempts (io : List Event) : Nat :=
  io.countP (fun e => match e with | Event.dialTCP _ _ => true | _ => false)

/-- The number of UDP probing rounds among the calls `io`, counted by the listen
window (`ReadFromUDP`, `nat.go:152`) that ends each round. -/
def probingRounds (io : List Event) : Nat :=
  io.countP (fun e => match e with | Event.udpRead _ _ => true | _ => false)

/-- The candidate ports in the words of the specification: the list
`[p, p+1, p-1, p+2, p-2, p+3, p-3]` without the elements outside `[1024, 65535]`. -/
def specCandidatePorts (p : Int) : List Int :=
  [p, p + 1, p - 1, p + 2, p - 2, p + 3, p - 3].filter (fun q => 1024 ≤ q ∧ q ≤ 65535)

/-- A peer that echoes the token: the write succeeds and the read returns the bytes
of `"FOXHOLE_HANDSHAKE_v1"`. -/
def echoingPeer : TCPConn :=
  { id := 1, writeErr := none, read := { data := bytes "FOXHOLE_HANDSHAKE_v1", err := none } }

/-- A peer that answers the handshake with five other bytes. -/
def wrongPeer : TCPConn :=
  { id := 7, writeErr := none, read := { data := bytes "HELLO", err := none } }

/-- A network on which nobody answers: every TCP dial fails, every bind and every
probe send succeeds, every listen window times out; every name resolves to
`198.51.100.9` with port `port`. -/
def silentNet (port : Int) : Net :=
  { dial := fun _ _ _ => .error (Err.sys "connection refused")
    resolve := fun _ => .ok { IP := "198.51.100.9", Port := port }
    bind := fun target => .ok target.Port.toNat
    send := fun _ _ _ => none
    recv := fun _ _ => .error (Err.sys "i/o timeout") }

/-- The silent network on which, in addition, no UDP socket can be bound. -/
def noSocketNet (port : Int) : Net :=
  { silentNet port with bind := fun _ => .error (Err.sys "too many open files") }

/-- The scenario of the specification: the endpoint is `198.51.100.9:30000`, and
only the socket probing port 30002 receives an answer, from round 2 on, sent from
`198.51.100.9:30002`. -/
def scenarioNet : Net :=
  { silentNet 30000 with
    recv := fun target round =>
      if target.Port = 30002 ∧ 2 ≤ round then
        .ok (⟨"198.51.100.9", 30002⟩, bytes "HOLE_PUNCH_PROBE_R2_P0")
      else .error (Err.sys "i/o timeout") }

/-- A network on which every listen window receives a datagram sent by the unrelated
host `203.0.113.77:5555`; the endpoint is `198.51.100.9:30000`. -/
def strayDatagramNet : Net :=
  { silentNet 30000 with recv := fun _ _ => .ok (⟨"203.0.113.77", 5555⟩, bytes "hello") }

/-- A STUN exchange that succeeds with a response carrying XOR-MAPPED-ADDRESS
`203.0.113.5:40000` and MAPPED-ADDRESS `192.0.2.1:1234`. -/
def sampleStun : StunNet :=
  { bind := fun _ => .ok 3
    resolve := fun _ => .ok ⟨"74.125.250.129", 19302⟩
    request := [0, 1, 0, 0]
    send := none
    recv := .ok [1, 1, 0, 12]
    decode := fun _ => none
    getXorMapped := fun _ => .ok ⟨"203.0.113.5", 40000⟩
    getMapped := fun _ => .ok ⟨"192.0.2.1", 1234⟩ }

/-- The UDP binds among the calls `io`. -/
def udpBinds (io : List Event) : List Event :=
  io.filter (fun e =>
    match e with
    | Event.listenUDP _ _ => true
    | Event.listenUDPAny => true
    | _ => false)

/-- The sample STUN exchange when the requested local port cannot be bound. -/
def busyPortStun : StunNet :=
  { sampleStun with bind := fun _ => .error (Err.sys "address already in use") }

/-- The sample STUN exchange with XOR-MAPPED-ADDRESS `203.0.113.5:40001`. -/
def otherMappingStun : StunNet :=
  { sampleStun with getXorMapped := fun _ => .ok ⟨"203.0.113.5", 40001⟩ }

/-- The payloads of the probe datagrams among the calls `io`, in order. -/
def probesSent (io : List Event) : List (List Nat) :=
  io.filterMap (fun e => match e with | Event.udpWrite _ payload _ => some payload | _ => none)

/-- The probe payload in the words of the specification: the ASCII text
`HOLE_PUNCH_PROBE_R<round>_P<index>`. -/
def specProbe (round index : Nat) : List Nat :=
  bytes ("HOLE_PUNCH_PROBE_R" ++ toString round ++ "_P" ++ toString index)

/-- The probes of round `r` in the words of the specification: `10 + 5r` probes, with
the indices `0, 1, ...` in order. -/
def specRoundProbes (r : Nat) : List (List Nat) :=
  (List.range (10 + 5 * r)).map (specProbe r)

/-- The pause after the probe of index `i` in the words of the specification:
`min(200 + 10 i, 500)` milliseconds. -/
def specInterval (i : Nat) : Int := min (200 + 10 * (i : Int)) 500 * Millisecond

/-- The number of rounds that an attempt on `raddr` goes through when its sends succeed,
counted from `round` with `remaining` rounds allowed: the rounds up to and including
the first one whose listen window receives a datagram. -/
def roundsRun (net : Net) (raddr : UDPAddr) : (remaining round : Nat) → Nat
  | 0, _ => 0
  | remaining + 1, round =>
    match net.recv raddr round with
    | .ok _ => 1
    | .error _ => 1 + roundsRun net raddr remaining (round + 1)

/-- The scenario of the specification with another answer: the datagram has the same
sender and arrives in the same listen windows, its payload is the single byte `x`. -/
def scenarioNetOtherPayload : Net :=
  { scenarioNet with
    recv := fun target round =>
      if target.Port = 30002 ∧ 2 ≤ round then .ok (⟨"198.51.100.9", 30002⟩, bytes "x")
      else .error (Err.sys "i/o timeout") }

/-- The scenario of the specification on which, in addition, every TCP dial reaches a
peer that echoes the handshake token. -/
def scenarioNetEchoingPeer : Net :=
  { scenarioNet with dial := fun _ _ _ => .ok echoingPeer }

/-! # Theorems -/

/-- The last element of a list that ends with a singleton. -/
theorem getLast?_cons_append_singleton {α : Type} (a x : α) (l : List α) :
    (a :: (l ++ [x])).getLast? = some x := by
  rw [← List.cons_append, List.getLast?_append]
  simp

/-! ## Handshake -/

/-- The token literal has 20 bytes. -/
theorem handshakeToken_length : handshakeToken.length = 20 := by decide

/-- The handshake check of `sendHandshake` cannot be passed: whatever the connection
answers, an error is returned. -/
theorem sendHandshake_fails (conn : TCPConn) : ∃ e, (sendHandshake conn).1 = some e := by
  unfold sendHandshake
  cases hw : conn.writeErr with
  | some err => exact ⟨_, rfl⟩
  | none =>
    cases hr : conn.read.err with
    | some err => exact ⟨_, rfl⟩
    | none =>
      refine ⟨Err.msg "invalid handshake response", ?_⟩
      have key : (List.take handshakeReplyLen conn.read.data).length ≠ 21 ∨
          List.take (List.take handshakeReplyLen conn.read.data).length
            (List.take handshakeReplyLen conn.read.data) ≠ bytes "FOXHOLE_HANDSHAKE_v1" := by
        by_cases hlen : (List.take handshakeReplyLen conn.read.data).length = 21
        · right
          intro heq
          have h20 : (bytes "FOXHOLE_HANDSHAKE_v1").length = 20 := by decide
          rw [List.take_length] at heq
          rw [← heq, hlen] at h20
          omega
        · exact Or.inl hlen
      simp only [if_pos key]

/-- C1 (code evaluated at the failing input): on a connection whose write succeeds
and whose read returns exactly the bytes of the token `"FOXHOLE_HANDSHAKE_v1"`,
`sendHandshake` returns the error "invalid handshake response" instead of `nil`. -/
theorem sendHandshake_rejects_echoed_token :
    echoingPeer.writeErr = none ∧ echoingPeer.read.err = none ∧
    echoingPeer.read.data = handshakeToken ∧
    (sendHandshake echoingPeer).1 = some (Err.msg "invalid handshake response") := by
  decide

/-- C2 (code evaluated): the token literal `"FOXHOLE_HANDSHAKE_v1"` is 20 bytes
long, one less than the reply length 21 that `sendHandshake` requires. -/
theorem handshakeToken_length_differs_from_reply_length :
    handshakeToken.length = 20 ∧ handshakeReplyLen = 21 ∧
    handshakeToken.length ≠ handshakeReplyLen := by
  decide

/-- C3: if the handshake read fails, or the number of bytes read differs from 21, or
the bytes read differ from the token, then `sendHandshake` returns an error; and
when `AttemptDirectConnection` or `attemptTCPConnection` has dialled such a
connection, it returns exactly that error as its failure and its last call is the
`Close` of the connection. -/
theorem sendHandshake_rejects_bad_peer (conn : TCPConn)
    (hbad : conn.read.err ≠ none ∨
      (conn.read.data.take handshakeReplyLen).length ≠ 21 ∨
      conn.read.data.take handshakeReplyLen ≠ handshakeToken) :
    ∃ e, (sendHandshake conn).1 = some e ∧
      (∀ (net : Net) (remoteAddr : String) (timeout : Int),
        net.dial 0 remoteAddr timeout = .ok conn →
          (AttemptDirectConnection net remoteAddr timeout).1 = .error e ∧
          (AttemptDirectConnection net remoteAddr timeout).2.getLast? =
            some (Event.tcpClose conn.id)) ∧
      (∀ (net : Net) (remoteAddr : String) (timeout : Int),
        net.dial 1 remoteAddr timeout = .ok conn →
          (attemptTCPConnection net remoteAddr timeout).1 = .error e ∧
          (attemptTCPConnection net remoteAddr timeout).2.getLast? =
            some (Event.tcpClose conn.id)) := by
  have hfail : ∃ e, (sendHandshake conn).1 = some e := by
    unfold sendHandshake
    cases hw : conn.writeErr with
    | some err => exact ⟨_, rfl⟩
    | none =>
      cases hr : conn.read.err with
      | some err => exact ⟨_, rfl⟩
      | none =>
        refine ⟨Err.msg "invalid handshake response", ?_⟩
        have key : (List.take handshakeReplyLen conn.read.data).length ≠ 21 ∨
            List.take (List.take handshakeReplyLen conn.read.data).length
              (List.take handshakeReplyLen conn.read.data) ≠ bytes "FOXHOLE_HANDSHAKE_v1" := by
          rcases hbad with h | h | h
          · exact absurd hr h
          · exact Or.inl h
          · right
            rw [List.take_length]
            exact h
        simp only [if_pos key]
  obtain ⟨e, he⟩ := hfail
  refine ⟨e, he, ?_, ?_⟩
  · intro net remoteAddr timeout hdial
    unfold AttemptDirectConnection
    rw [hdial]
    rcases hs : sendHandshake conn with ⟨r, io⟩
    rw [hs] at he
    simp only at he
    subst he
    simp [hs, getLast?_cons_append_singleton]
  · intro net remoteAddr timeout hdial
    unfold attemptTCPConnection
    rw [hdial]
    rcases hs : sendHandshake conn with ⟨r, io⟩
    rw [hs] at he
    simp only at he
    subst he
    simp [hs, getLast?_cons_append_singleton]

/-- C3 on a peer that answers with five other bytes. -/
theorem sendHandshake_rejects_bad_peer_witness :
    (wrongPeer.read.err ≠ none ∨
      (wrongPeer.read.data.take handshakeReplyLen).length ≠ 21 ∨
      wrongPeer.read.data.take handshakeReplyLen ≠ handshakeToken) ∧
    ∃ e, (sendHandshake wrongPeer).1 = some e ∧
      (∀ (net : Net) (remoteAddr : String) (timeout : Int),
        net.dial 0 remoteAddr timeout = .ok wrongPeer →
          (AttemptDirectConnection net remoteAddr timeout).1 = .error e ∧
          (AttemptDirectConnection net remoteAddr timeout).2.getLast? =
            some (Event.tcpClose wrongPeer.id)) ∧
      (∀ (net : Net) (remoteAddr : String) (timeout : Int),
        net.dial 1 remoteAddr timeout = .ok wrongPeer →
          (attemptTCPConnection net remoteAddr timeout).1 = .error e ∧
          (attemptTCPConnection net remoteAddr timeout).2.getLast? =
            some (Event.tcpClose wrongPeer.id)) :=
  ⟨by decide, sendHandshake_rejects_bad_peer wrongPeer (by decide)⟩

/-! ## The strategy ladder -/

/-- C4: `EstablishConnection` is the ladder over direct TCP, UDP hole punching and
TCP fallback, in this order.  If direct TCP succeeds, its connection is returned and
the calls made are those of direct TCP alone; if direct TCP fails and hole punching
succeeds, the connection of hole punching is returned and the calls are those of
direct TCP followed by those of hole punching; if both fail, the result is that of
the TCP fallback and the calls are those of the three strategies in order. -/
theorem EstablishConnection_strategy_order (direct punch fallback : Run) :
    (∀ (net : Net) (remoteAddr : String) (timeoutSec : Int),
      EstablishConnection net remoteAddr timeoutSec =
        EstablishConnectionWith
          (AttemptDirectConnection net remoteAddr (wrap64 (timeoutSec * Second)))
          (performHolePunching net remoteAddr (wrap64 (timeoutSec * Second)))
          (attemptTCPConnection net remoteAddr (wrap64 (timeoutSec * Second)))) ∧
    (∀ conn, direct.1 = .ok conn →
      EstablishConnectionWith direct punch fallback = (.ok conn, direct.2)) ∧
    (∀ e conn, direct.1 = .error e → punch.1 = .ok conn →
      EstablishConnectionWith direct punch fallback = (.ok conn, direct.2 ++ punch.2)) ∧
    (∀ e e2, direct.1 = .error e → punch.1 = .error e2 →
      EstablishConnectionWith direct punch fallback =
        (fallback.1, direct.2 ++ punch.2 ++ fallback.2)) := by
  refine ⟨fun _ _ _ => rfl, ?_, ?_, ?_⟩
  · intro conn hd
    rcases direct with ⟨r, io⟩
    simp only at hd
    subst hd
    rfl
  · intro e conn hd hp
    rcases direct with ⟨r, io⟩
    rcases punch with ⟨r2, io2⟩
    simp only at hd hp
    subst hd hp
    rfl
  · intro e e2 hd hp
    rcases direct with ⟨r, io⟩
    rcases punch with ⟨r2, io2⟩
    simp only at hd hp
    subst hd hp
    rfl

/-- C4 on three sample outcomes: direct TCP succeeds; only hole punching succeeds;
all three strategies fail. -/
theorem EstablishConnection_strategy_order_witness :
    EstablishConnectionWith
        (.ok (Conn.tcp echoingPeer), [Event.dialTCP "198.51.100.9:30000" 30])
        (.ok (Conn.udp 5 ⟨"198.51.100.9", 30000⟩), [Event.resolveUDP "198.51.100.9:30000"])
        (.error (Err.sys "refused"), [Event.dialTCP "198.51.100.9:30000" 30]) =
      (.ok (Conn.tcp echoingPeer), [Event.dialTCP "198.51.100.9:30000" 30]) ∧
    EstablishConnectionWith
        (.error (Err.sys "refused"), [Event.dialTCP "198.51.100.9:30000" 30])
        (.ok (Conn.udp 5 ⟨"198.51.100.9", 30000⟩), [Event.resolveUDP "198.51.100.9:30000"])
        (.error (Err.sys "refused"), [Event.dialTCP "198.51.100.9:30000" 30]) =
      (.ok (Conn.udp 5 ⟨"198.51.100.9", 30000⟩),
        [Event.dialTCP "198.51.100.9:30000" 30, Event.resolveUDP "198.51.100.9:30000"]) ∧
    EstablishConnectionWith
        (.error (Err.sys "refused"), [Event.dialTCP "198.51.100.9:30000" 30])
        (.error (Err.msg "all port combinations failed"), [Event.resolveUDP "198.51.100.9:30000"])
        (.error (Err.sys "refused"), [Event.dialTCP "198.51.100.9:30000" 30]) =
      (.error (Err.sys "refused"),
        [Event.dialTCP "198.51.100.9:30000" 30, Event.resolveUDP "198.51.100.9:30000",
          Event.dialTCP "198.51.100.9:30000" 30]) :=
  ⟨(EstablishConnection_strategy_order _ _ _).2.1 _ rfl,
   (EstablishConnection_strategy_order _ _ _).2.2.1 _ _ rfl rfl,
   (EstablishConnection_strategy_order _ _ _).2.2.2 _ _ rfl rfl⟩

/-! ## A silent network -/

/-- Dial attempts add up over consecutive calls. -/
theorem tcpDialAttempts_append (a b : List Event) :
    tcpDialAttempts (a ++ b) = tcpDialAttempts a + tcpDialAttempts b := by
  simp [tcpDialAttempts, List.countP_append]

/-- Probing rounds add up over consecutive calls. -/
theorem probingRounds_append (a b : List Event) :
    probingRounds (a ++ b) = probingRounds a + probingRounds b := by
  simp [probingRounds, List.countP_append]

/-- When every send succeeds, the probe loop ends without error, and it neither
dials nor listens. -/
theorem sendProbes_all_sent (net : Net) (sock : Nat) (raddr : UDPAddr) (round : Nat)
    (hsend : ∀ i, net.send raddr round i = none) (remaining i : Nat) :
    (sendProbes net sock raddr round remaining i).1 = none ∧
    tcpDialAttempts (sendProbes net sock raddr round remaining i).2 = 0 ∧
    probingRounds (sendProbes net sock raddr round remaining i).2 = 0 := by
  induction remaining generalizing i with
  | zero => simp [sendProbes, tcpDialAttempts, probingRounds]
  | succ k ih =>
    obtain ⟨h1, h2, h3⟩ := ih (i + 1)
    simp only [sendProbes, hsend]
    refine ⟨h1, ?_, ?_⟩
    · simpa [tcpDialAttempts] using h2
    · simpa [probingRounds] using h3

/-- When every send succeeds and every listen window times out, the round loop fails
after listening once per remaining round. -/
theorem punchRounds_silent (net : Net) (sock : Nat) (raddr : UDPAddr) (rounds : Nat)
    (hsend : ∀ r i, net.send raddr r i = none)
    (hrecv : ∀ r, ∃ e, net.recv raddr r = .error e) (remaining round : Nat) :
    (∃ e, (punchRounds net sock raddr rounds remaining round).1 = .error e) ∧
    tcpDialAttempts (punchRounds net sock raddr rounds remaining round).2 = 0 ∧
    probingRounds (punchRounds net sock raddr rounds remaining round).2 = remaining := by
  induction remaining generalizing round with
  | zero => simp [punchRounds, tcpDialAttempts, probingRounds]
  | succ k ih =>
    obtain ⟨⟨e, he⟩, h2, h3⟩ := ih (round + 1)
    obtain ⟨p1, p2, p3⟩ := sendProbes_all_sent net sock raddr round (hsend round) (10 + round * 5) 0
    obtain ⟨e', he'⟩ := hrecv round
    rcases hs : sendProbes net sock raddr round (10 + round * 5) 0 with ⟨r, io⟩
    rw [hs] at p1 p2 p3
    simp only at p1 p2 p3
    subst p1
    simp only [punchRounds, hs, he']
    refine ⟨⟨e, he⟩, ?_, ?_⟩
    · rw [tcpDialAttempts_append, tcpDialAttempts_append, tcpDialAttempts_append, p2, h2]
      by_cases hlt : round < rounds <;> simp [tcpDialAttempts, hlt]
    · rw [probingRounds_append, probingRounds_append, probingRounds_append, p3, h3]
      by_cases hlt : round < rounds <;> simp [probingRounds, hlt] <;> omega

/-- On a silent network with a bindable socket, an attempt on one port fails after
exactly three rounds. -/
theorem attemptHolePunchingOnPort_silent (net : Net) (raddr : UDPAddr) (timeout : Int)
    (hbind : ∃ s, net.bind raddr = .ok s)
    (hsend : ∀ r i, net.send raddr r i = none)
    (hrecv : ∀ r, ∃ e, net.recv raddr r = .error e) :
    (∃ e, (attemptHolePunchingOnPort net raddr timeout).1 = .error e) ∧
    tcpDialAttempts (attemptHolePunchingOnPort net raddr timeout).2 = 0 ∧
    probingRounds (attemptHolePunchingOnPort net raddr timeout).2 = 3 := by
  obtain ⟨s, hs⟩ := hbind
  obtain ⟨h1, h2, h3⟩ := punchRounds_silent net s raddr 3 hsend hrecv 3 1
  simp only [attemptHolePunchingOnPort, hs]
  refine ⟨h1, ?_, ?_⟩
  · simpa [tcpDialAttempts] using h2
  · simpa [probingRounds] using h3

/-- The offset loop, when every attempt fails after three rounds: it fails, and the
number of rounds is three for each offset that yields a port in `[1024, 65535]`. -/
theorem tryOffsets_silent (attempt : UDPAddr → Run) (raddr : UDPAddr)
    (h : ∀ target, (∃ e, (attempt target).1 = .error e) ∧
      tcpDialAttempts (attempt target).2 = 0 ∧ probingRounds (attempt target).2 = 3)
    (offsets : List Int) :
    (∃ e, (tryOffsets attempt raddr offsets).1 = .error e) ∧
    tcpDialAttempts (tryOffsets attempt raddr offsets).2 = 0 ∧
    probingRounds (tryOffsets attempt raddr offsets).2 =
      3 * (offsets.filter (fun o => 1024 ≤ raddr.Port + o ∧ raddr.Port + o ≤ 65535)).length := by
  induction offsets with
  | nil => simp [tryOffsets, tcpDialAttempts, probingRounds]
  | cons o rest ih =>
    obtain ⟨⟨e, he⟩, h2, h3⟩ := ih
    by_cases hr : raddr.Port + o < 1024 ∨ raddr.Port + o > 65535
    · have hnot : ¬ (1024 ≤ raddr.Port + o ∧ raddr.Port + o ≤ 65535) := by omega
      simp only [tryOffsets, if_pos hr]
      refine ⟨⟨e, he⟩, h2, ?_⟩
      rw [h3, List.filter_cons_of_neg (by simpa using hnot)]
    · have hin : 1024 ≤ raddr.Port + o ∧ raddr.Port + o ≤ 65535 := by omega
      obtain ⟨⟨e', he'⟩, a2, a3⟩ := h { IP := raddr.IP, Port := raddr.Port + o }
      rcases ha : attempt { IP := raddr.IP, Port := raddr.Port + o } with ⟨r, io⟩
      rw [ha] at he' a2 a3
      simp only at he' a2 a3
      subst he'
      simp only [tryOffsets, if_neg hr, ha]
      refine ⟨⟨e, he⟩, ?_, ?_⟩
      · rw [tcpDialAttempts_append, a2, h2]
      · rw [probingRounds_append, a3, h3, List.filter_cons_of_pos (by simpa using hin)]
        simp only [List.length_cons]
        omega

/-- The in-range ports `p + offset`, for the offsets of the code in their order, are
the candidate ports in the words of the specification. -/
theorem offsets_give_specCandidatePorts (p : Int) :
    (portOffsets.map (fun o => p + o)).filter (fun q => 1024 ≤ q ∧ q ≤ 65535) =
      specCandidatePorts p := by
  simp only [portOffsets, specCandidatePorts, List.map_cons, List.map_nil, add_zero,
    ← sub_eq_add_neg]

/-- C5 (counterexample): on a silent network whose endpoint `198.51.100.9:1024`
resolves (every dial fails, every send succeeds, every listen window times out),
`EstablishConnection` makes 12 probing rounds, not 21, because the offsets `-1`, `-2`
and `-3` give ports below 1024; and when in addition no UDP socket can be bound, it
makes no probing round at all. -/
theorem EstablishConnection_silent_counterexample :
    ((silentNet 1024).resolve "198.51.100.9:1024" = .ok ⟨"198.51.100.9", 1024⟩ ∧
      (∀ k a t, (silentNet 1024).dial k a t = .error (Err.sys "connection refused")) ∧
      (∀ target r i, (silentNet 1024).send target r i = none) ∧
      (∀ target r, (silentNet 1024).recv target r = .error (Err.sys "i/o timeout")) ∧
      probingRounds (EstablishConnection (silentNet 1024) "198.51.100.9:1024" 30).2 = 12) ∧
    ((noSocketNet 30000).resolve "198.51.100.9:30000" = .ok ⟨"198.51.100.9", 30000⟩ ∧
      (∀ k a t, (noSocketNet 30000).dial k a t = .error (Err.sys "connection refused")) ∧
      (∀ target r i, (noSocketNet 30000).send target r i = none) ∧
      (∀ target r, (noSocketNet 30000).recv target r = .error (Err.sys "i/o timeout")) ∧
      probingRounds (EstablishConnection (noSocketNet 30000) "198.51.100.9:30000" 30).2 = 0) := by
  refine ⟨⟨rfl, fun _ _ _ => rfl, fun _ _ _ => rfl, fun _ _ => rfl, ?_⟩,
    ⟨rfl, fun _ _ _ => rfl, fun _ _ _ => rfl, fun _ _ => rfl, ?_⟩⟩
  · set_option maxRecDepth 100000 in decide
  · set_option maxRecDepth 100000 in decide

/-- C5 (amended): for a remote endpoint that resolves to port `p`, when every UDP
socket bind succeeds, every TCP dial fails, every probe send succeeds and every
listen window times out, `EstablishConnection` returns an error after exactly 2 TCP
dial attempts and exactly 3 probing rounds for each candidate port within
`[1024, 65535]`; these are 7 x 3 = 21 rounds when `1027 ≤ p ≤ 65532`. -/
theorem EstablishConnection_silent (net : Net) (remoteAddr : String) (timeoutSec : Int)
    (raddr : UDPAddr) (hres : net.resolve remoteAddr = .ok raddr)
    (hdial : ∀ k a t, ∃ e, net.dial k a t = .error e)
    (hbind : ∀ target, ∃ s, net.bind target = .ok s)
    (hsend : ∀ target r i, net.send target r i = none)
    (hrecv : ∀ target r, ∃ e, net.recv target r = .error e) :
    (∃ e, (EstablishConnection net remoteAddr timeoutSec).1 = .error e) ∧
    tcpDialAttempts (EstablishConnection net remoteAddr timeoutSec).2 = 2 ∧
    probingRounds (EstablishConnection net remoteAddr timeoutSec).2 =
      3 * (specCandidatePorts raddr.Port).length ∧
    (1027 ≤ raddr.Port ∧ raddr.Port ≤ 65532 →
      probingRounds (EstablishConnection net remoteAddr timeoutSec).2 = 21) := by
  obtain ⟨e0, hd0⟩ := hdial 0 remoteAddr (wrap64 (timeoutSec * Second))
  obtain ⟨e1, hd1⟩ := hdial 1 remoteAddr (wrap64 (timeoutSec * Second))
  obtain ⟨⟨e, he⟩, h2, h3⟩ := tryOffsets_silent
    (fun target => attemptHolePunchingOnPort net target (wrap64 (timeoutSec * Second))) raddr
    (fun target => attemptHolePunchingOnPort_silent net target _ (hbind target)
      (hsend target) (hrecv target)) portOffsets
  have hcount : (portOffsets.filter
      (fun o => 1024 ≤ raddr.Port + o ∧ raddr.Port + o ≤ 65535)).length =
      (specCandidatePorts raddr.Port).length := by
    rw [← offsets_give_specCandidatePorts, List.filter_map, List.length_map]
    rfl
  rw [hcount] at h3
  rcases ht : tryOffsets
    (fun target => attemptHolePunchingOnPort net target (wrap64 (timeoutSec * Second))) raddr
    portOffsets with ⟨r, io⟩
  rw [ht] at he h2 h3
  simp only at he h2 h3
  subst he
  have hrounds : probingRounds (EstablishConnection net remoteAddr timeoutSec).2 =
      3 * (specCandidatePorts raddr.Port).length := by
    simp only [EstablishConnection, EstablishConnectionWith, AttemptDirectConnection,
      performHolePunching, attemptTCPConnection, hd0, hd1, hres, ht]
    have hcons : probingRounds (Event.resolveUDP remoteAddr :: io) = probingRounds io := rfl
    have hone : probingRounds [Event.dialTCP remoteAddr (wrap64 (timeoutSec * Second))] = 0 :=
      rfl
    rw [probingRounds_append, probingRounds_append, hcons, hone, h3]
    omega
  refine ⟨?_, ?_, hrounds, ?_⟩
  · simp only [EstablishConnection, EstablishConnectionWith, AttemptDirectConnection,
      performHolePunching, attemptTCPConnection, hd0, hd1, hres, ht]
    exact ⟨_, rfl⟩
  · simp only [EstablishConnection, EstablishConnectionWith, AttemptDirectConnection,
      performHolePunching, attemptTCPConnection, hd0, hd1, hres, ht]
    have hcons : tcpDialAttempts (Event.resolveUDP remoteAddr :: io) = tcpDialAttempts io := rfl
    have hone : tcpDialAttempts [Event.dialTCP remoteAddr (wrap64 (timeoutSec * Second))] = 1 :=
      rfl
    rw [tcpDialAttempts_append, tcpDialAttempts_append, hcons, hone, h2]
  · intro hport
    have hall : (specCandidatePorts raddr.Port).length = 7 := by
      obtain ⟨hlo, hhi⟩ := hport
      have hself : specCandidatePorts raddr.Port =
          [raddr.Port, raddr.Port + 1, raddr.Port - 1, raddr.Port + 2, raddr.Port - 2,
            raddr.Port + 3, raddr.Port - 3] := by
        unfold specCandidatePorts
        rw [List.filter_eq_self]
        intro q hq
        simp only [List.mem_cons, List.mem_singleton, List.not_mem_nil, or_false] at hq
        rcases hq with rfl | rfl | rfl | rfl | rfl | rfl | rfl <;> simp <;> omega
      rw [hself]
      rfl
    rw [hrounds, hall]

/-- The amended C5 on the silent network with endpoint `198.51.100.9:30000`. -/
theorem EstablishConnection_silent_witness :
    (∃ e, (EstablishConnection (silentNet 30000) "198.51.100.9:30000" 30).1 = .error e) ∧
    tcpDialAttempts (EstablishConnection (silentNet 30000) "198.51.100.9:30000" 30).2 = 2 ∧
    probingRounds (EstablishConnection (silentNet 30000) "198.51.100.9:30000" 30).2 = 21 :=
  have h := EstablishConnection_silent (silentNet 30000) "198.51.100.9:30000" 30
    ⟨"198.51.100.9", 30000⟩ rfl (fun _ _ _ => ⟨_, rfl⟩) (fun _ => ⟨_, rfl⟩) (fun _ _ _ => rfl)
    (fun _ _ => ⟨_, rfl⟩)
  ⟨h.1, h.2.1, h.2.2.2 (by decide)⟩

/-! ## The candidate ports of hole punching -/

/-- The offset loop when every attempt on an in-range port fails: the attempts are
made on the in-range ports `raddr.Port + offset`, one per offset and in the order of
the offsets, and the loop ends with "all port combinations failed". -/
theorem tryOffsets_all_fail (attempt : UDPAddr → Run) (raddr : UDPAddr) (offsets : List Int)
    (hfail : ∀ o ∈ offsets, 1024 ≤ raddr.Port + o ∧ raddr.Port + o ≤ 65535 →
      ∃ e, (attempt ⟨raddr.IP, raddr.Port + o⟩).1 = .error e) :
    tryOffsets attempt raddr offsets =
      (.error (Err.msg "all port combinations failed"),
        (((offsets.map (fun o => raddr.Port + o)).filter
          (fun q => 1024 ≤ q ∧ q ≤ 65535)).map (fun q => (attempt ⟨raddr.IP, q⟩).2)).flatten) := by
  induction offsets with
  | nil => rfl
  | cons o rest ih =>
    have ih' := ih (fun o' ho' => hfail o' (List.mem_cons_of_mem _ ho'))
    by_cases hr : raddr.Port + o < 1024 ∨ raddr.Port + o > 65535
    · have hnot : ¬ (1024 ≤ raddr.Port + o ∧ raddr.Port + o ≤ 65535) := by omega
      simp only [tryOffsets, if_pos hr, ih', List.map_cons]
      rw [List.filter_cons_of_neg (by simpa using hnot)]
    · have hin : 1024 ≤ raddr.Port + o ∧ raddr.Port + o ≤ 65535 := by omega
      obtain ⟨e, he⟩ := hfail o (List.mem_cons_self _ _) hin
      rcases ha : attempt ⟨raddr.IP, raddr.Port + o⟩ with ⟨r, io⟩
      rw [ha] at he
      simp only at he
      subst he
      simp only [tryOffsets, if_neg hr, ha, ih', List.map_cons]
      rw [List.filter_cons_of_pos (by simpa using hin)]
      simp only [List.map_cons, List.flatten_cons, ha]

/-- No candidate port occurs twice. -/
theorem specCandidatePorts_nodup (p : Int) : (specCandidatePorts p).Nodup := by
  apply List.Nodup.filter
  simp only [List.nodup_cons, List.mem_cons, List.mem_singleton, List.not_mem_nil,
    List.nodup_nil, not_or, and_true, not_false_eq_true]
  omega

/-- C6: when the attempt on every candidate fails, the attempts that
`performHolePunching` makes for a remote address `ip:p` are the attempts on `ip:q`
for `q` running through `[p, p+1, p-1, p+2, p-2, p+3, p-3]` without the ports
outside `[1024, 65535]`, in that order and once each (the list has no duplicates):
the calls made are the resolution followed by the calls of these attempts, and this
holds for any callee in place of `attemptHolePunchingOnPort`. -/
theorem performHolePunching_candidates (net : Net) (remoteAddr : String) (timeout : Int)
    (raddr : UDPAddr) (hres : net.resolve remoteAddr = .ok raddr)
    (hfail : ∀ q ∈ specCandidatePorts raddr.Port,
      ∃ e, (attemptHolePunchingOnPort net ⟨raddr.IP, q⟩ timeout).1 = .error e) :
    performHolePunching net remoteAddr timeout =
      (.error (Err.msg "all port combinations failed"),
        Event.resolveUDP remoteAddr ::
          ((specCandidatePorts raddr.Port).map
            (fun q => (attemptHolePunchingOnPort net ⟨raddr.IP, q⟩ timeout).2)).flatten) ∧
    (specCandidatePorts raddr.Port).Nodup ∧
    (∀ attempt : UDPAddr → Run,
      (∀ q ∈ specCandidatePorts raddr.Port, ∃ e, (attempt ⟨raddr.IP, q⟩).1 = .error e) →
      tryOffsets attempt raddr portOffsets =
        (.error (Err.msg "all port combinations failed"),
          ((specCandidatePorts raddr.Port).map (fun q => (attempt ⟨raddr.IP, q⟩).2)).flatten)) := by
  have gen : ∀ attempt : UDPAddr → Run,
      (∀ q ∈ specCandidatePorts raddr.Port, ∃ e, (attempt ⟨raddr.IP, q⟩).1 = .error e) →
      tryOffsets attempt raddr portOffsets =
        (.error (Err.msg "all port combinations failed"),
          ((specCandidatePorts raddr.Port).map (fun q => (attempt ⟨raddr.IP, q⟩).2)).flatten) := by
    intro attempt h
    rw [← offsets_give_specCandidatePorts]
    apply tryOffsets_all_fail
    intro o ho hin
    apply h
    rw [← offsets_give_specCandidatePorts]
    exact List.mem_filter.mpr ⟨List.mem_map.mpr ⟨o, ho, rfl⟩, by simpa using hin⟩
  refine ⟨?_, specCandidatePorts_nodup _, gen⟩
  have h := gen (fun target => attemptHolePunchingOnPort net target timeout) hfail
  simp only [performHolePunching, hres, h]

/-- C6 on the silent network with endpoint port 1025: the candidates are 1025, 1026,
1024, 1027 and 1028. -/
theorem performHolePunching_candidates_witness :
    specCandidatePorts 1025 = [1025, 1026, 1024, 1027, 1028] ∧
    performHolePunching (silentNet 1025) "198.51.100.9:1025" 30 =
      (.error (Err.msg "all port combinations failed"),
        Event.resolveUDP "198.51.100.9:1025" ::
          ((specCandidatePorts 1025).map
            (fun q => (attemptHolePunchingOnPort (silentNet 1025) ⟨"198.51.100.9", q⟩ 30).2)).flatten) :=
  ⟨by decide,
    (performHolePunching_candidates (silentNet 1025) "198.51.100.9:1025" 30
      ⟨"198.51.100.9", 1025⟩ rfl
      (fun q _ => (attemptHolePunchingOnPort_silent (silentNet 1025) ⟨"198.51.100.9", q⟩ 30
        ⟨_, rfl⟩ (fun _ _ => rfl) (fun _ => ⟨_, rfl⟩)).1)).1⟩

/-! ## A datagram arrives -/

/-- Without a datagram in any listen window, the round loop fails. -/
theorem punchRounds_fails (net : Net) (sock : Nat) (raddr : UDPAddr) (rounds : Nat)
    (hrecv : ∀ r, ∃ e, net.recv raddr r = .error e) (remaining round : Nat) :
    ∃ e, (punchRounds net sock raddr rounds remaining round).1 = .error e := by
  induction remaining generalizing round with
  | zero => exact ⟨_, rfl⟩
  | succ k ih =>
    obtain ⟨e, he⟩ := ih (round + 1)
    obtain ⟨e', he'⟩ := hrecv round
    rcases hs : sendProbes net sock raddr round (10 + round * 5) 0 with ⟨r, io⟩
    cases r with
    | some err => exact ⟨err, by simp only [punchRounds, hs]⟩
    | none => exact ⟨e, by simp only [punchRounds, hs, he', he]⟩

/-- Without a datagram in any listen window, the attempt on a port fails. -/
theorem attemptHolePunchingOnPort_fails (net : Net) (raddr : UDPAddr) (timeout : Int)
    (hrecv : ∀ r, ∃ e, net.recv raddr r = .error e) :
    ∃ e, (attemptHolePunchingOnPort net raddr timeout).1 = .error e := by
  cases hb : net.bind raddr with
  | error err =>
    exact ⟨Err.wrap "failed to bind UDP socket" err, by simp only [attemptHolePunchingOnPort, hb]⟩
  | ok sock =>
    obtain ⟨e, he⟩ := punchRounds_fails net sock raddr 3 hrecv 3 1
    exact ⟨e, by simp only [attemptHolePunchingOnPort, hb, he]⟩

/-- Every probe of the probe loop goes to the address the loop is given. -/
theorem sendProbes_destination (net : Net) (sock : Nat) (raddr : UDPAddr) (round : Nat)
    (remaining i : Nat) (s : Nat) (pl : List Nat) (d : UDPAddr)
    (hmem : Event.udpWrite s pl d ∈ (sendProbes net sock raddr round remaining i).2) :
    d = raddr := by
  induction remaining generalizing i with
  | zero => simp [sendProbes] at hmem
  | succ k ih =>
    cases hsend : net.send raddr round i with
    | some err =>
      simp only [sendProbes, hsend, List.mem_cons, List.mem_singleton, List.not_mem_nil,
        Event.udpWrite.injEq, or_false] at hmem
      rcases hmem with h | h
      · exact h.2.2
      · cases h
    | none =>
      simp only [sendProbes, hsend, List.mem_cons, Event.udpWrite.injEq] at hmem
      rcases hmem with h | h | h
      · exact h.2.2
      · cases h
      · exact ih (i + 1) h

/-- Every probe of the round loop goes to the address the loop is given. -/
theorem punchRounds_destination (net : Net) (sock : Nat) (raddr : UDPAddr) (rounds : Nat)
    (remaining round : Nat) (s : Nat) (pl : List Nat) (d : UDPAddr)
    (hmem : Event.udpWrite s pl d ∈ (punchRounds net sock raddr rounds remaining round).2) :
    d = raddr := by
  induction remaining generalizing round with
  | zero => simp [punchRounds] at hmem
  | succ k ih =>
    have hp := sendProbes_destination net sock raddr round (10 + round * 5) 0 s pl d
    rcases hs : sendProbes net sock raddr round (10 + round * 5) 0 with ⟨r, io⟩
    rw [hs] at hp
    cases r with
    | some err =>
      simp only [punchRounds, hs] at hmem
      exact hp hmem
    | none =>
      cases hr : net.recv raddr round with
      | ok dg =>
        simp only [punchRounds, hs, hr, List.mem_append, List.mem_cons, List.mem_singleton,
          List.not_mem_nil, or_false] at hmem
        rcases hmem with h | h | h
        · exact hp h
        · cases h
        · cases h
      | error e =>
        simp only [punchRounds, hs, hr, List.mem_append, List.mem_cons, List.mem_singleton,
          List.not_mem_nil, or_false] at hmem
        rcases hmem with ((h | h | h) | h) | h
        · exact hp h
        · cases h
        · cases h
        · by_cases hlt : round < rounds
          · simp [hlt] at h
          · simp [hlt] at h
        · exact ih (round + 1) h

/-- Every probe of an attempt goes to the address of the attempt. -/
theorem attemptHolePunchingOnPort_destination (net : Net) (raddr : UDPAddr) (timeout : Int)
    (s : Nat) (pl : List Nat) (d : UDPAddr)
    (hmem : Event.udpWrite s pl d ∈ (attemptHolePunchingOnPort net raddr timeout).2) :
    d = raddr := by
  cases hb : net.bind raddr with
  | error err => simp [attemptHolePunchingOnPort, hb] at hmem
  | ok sock =>
    simp only [attemptHolePunchingOnPort, hb, List.mem_cons] at hmem
    rcases hmem with h | h
    · cases h
    · exact punchRounds_destination net sock raddr 3 3 1 s pl d h

/-- When the sends succeed, the windows before round `r` time out and the window of
round `r` receives a datagram from `src`, the round loop returns the socket wrapped
with remote address `src`. -/
theorem punchRounds_receives (net : Net) (sock : Nat) (raddr : UDPAddr) (rounds r : Nat)
    (src : UDPAddr) (pl : List Nat)
    (hsend : ∀ r' i, r' ≤ r → net.send raddr r' i = none)
    (hprev : ∀ r', r' < r → ∃ e, net.recv raddr r' = .error e)
    (hrecv : net.recv raddr r = .ok (src, pl))
    (remaining round : Nat) (hle : round ≤ r) (hlt : r < round + remaining) :
    (punchRounds net sock raddr rounds remaining round).1 = .ok (Conn.udp sock src) := by
  induction remaining generalizing round with
  | zero => omega
  | succ k ih =>
    obtain ⟨p1, -, -⟩ := sendProbes_all_sent net sock raddr round
      (fun i => hsend round i hle) (10 + round * 5) 0
    rcases hs : sendProbes net sock raddr round (10 + round * 5) 0 with ⟨res, io⟩
    rw [hs] at p1
    simp only at p1
    subst p1
    by_cases heq : round = r
    · subst heq
      simp only [punchRounds, hs, hrecv]
    · obtain ⟨e, he⟩ := hprev round (by omega)
      simp only [punchRounds, hs, he]
      exact ih (round + 1) (by omega) (by omega)

/-- The offset loop stops at the first offset whose attempt succeeds: it returns that
connection, and every call it makes belongs to the attempt on an in-range port of an
offset up to that one. -/
theorem tryOffsets_first_success (attempt : UDPAddr → Run) (raddr : UDPAddr)
    (pre : List Int) (o : Int) (post : List Int) (conn : Conn)
    (hpre : ∀ o' ∈ pre, 1024 ≤ raddr.Port + o' ∧ raddr.Port + o' ≤ 65535 →
      ∃ e, (attempt ⟨raddr.IP, raddr.Port + o'⟩).1 = .error e)
    (hin : 1024 ≤ raddr.Port + o ∧ raddr.Port + o ≤ 65535)
    (hok : (attempt ⟨raddr.IP, raddr.Port + o⟩).1 = .ok conn) :
    (tryOffsets attempt raddr (pre ++ o :: post)).1 = .ok conn ∧
    ∀ ev ∈ (tryOffsets attempt raddr (pre ++ o :: post)).2,
      ∃ o' ∈ pre ++ [o], ev ∈ (attempt ⟨raddr.IP, raddr.Port + o'⟩).2 := by
  induction pre with
  | nil =>
    have hr : ¬ (raddr.Port + o < 1024 ∨ raddr.Port + o > 65535) := by omega
    rcases ha : attempt ⟨raddr.IP, raddr.Port + o⟩ with ⟨res, io⟩
    rw [ha] at hok
    simp only at hok
    subst hok
    simp only [List.nil_append, tryOffsets, if_neg hr, ha, List.mem_singleton, true_and]
    intro ev hev
    exact ⟨o, rfl, by rw [ha]; exact hev⟩
  | cons a rest ih =>
    obtain ⟨h1, h2⟩ := ih (fun o' ho' => hpre o' (List.mem_cons_of_mem _ ho'))
    have hstep : ∀ ev ∈ (tryOffsets attempt raddr (rest ++ o :: post)).2,
        ∃ o' ∈ (a :: rest) ++ [o], ev ∈ (attempt ⟨raddr.IP, raddr.Port + o'⟩).2 := by
      intro ev hev
      obtain ⟨o', ho', hmem⟩ := h2 ev hev
      exact ⟨o', List.mem_cons_of_mem _ ho', hmem⟩
    by_cases hr : raddr.Port + a < 1024 ∨ raddr.Port + a > 65535
    · simp only [List.cons_append, tryOffsets, if_pos hr]
      exact ⟨h1, hstep⟩
    · obtain ⟨e, he⟩ := hpre a (List.mem_cons_self _ _) (by omega)
      rcases ha : attempt ⟨raddr.IP, raddr.Port + a⟩ with ⟨res, io⟩
      rw [ha] at he
      simp only at he
      subst he
      simp only [List.cons_append, tryOffsets, if_neg hr, ha, List.mem_append]
      refine ⟨h1, ?_⟩
      intro ev hev
      rcases hev with hev | hev
      · exact ⟨a, List.mem_cons_self _ _, by rw [ha]; exact hev⟩
      · exact hstep ev hev

/-- C7 (counterexample): with endpoint `198.51.100.9:30000`, a datagram from the
unrelated sender `203.0.113.77:5555` received in round 1 of the first candidate
makes the UDP strategy return a connection whose remote address is
`203.0.113.77:5555`, not the candidate `198.51.100.9:30000`. -/
theorem performHolePunching_stray_datagram_counterexample :
    strayDatagramNet.resolve "198.51.100.9:30000" = .ok ⟨"198.51.100.9", 30000⟩ ∧
    strayDatagramNet.recv ⟨"198.51.100.9", 30000⟩ 1 =
      .ok (⟨"203.0.113.77", 5555⟩, bytes "hello") ∧
    (performHolePunching strayDatagramNet "198.51.100.9:30000" 30000000000).1 =
      .ok (Conn.udp 30000 ⟨"203.0.113.77", 5555⟩) ∧
    (performHolePunching strayDatagramNet "198.51.100.9:30000" 30000000000).1 ≠
      .ok (Conn.udp 30000 ⟨"198.51.100.9", 30000⟩) := by
  have h : (performHolePunching strayDatagramNet "198.51.100.9:30000" 30000000000).1 =
      .ok (Conn.udp 30000 ⟨"203.0.113.77", 5555⟩) := by
    set_option maxRecDepth 100000 in rfl
  refine ⟨rfl, rfl, h, ?_⟩
  rw [h]
  simp

/-- C7 (amended): let the remote endpoint resolve to `ip:p`, let `o` be an offset of
the list with `p + o` in `[1024, 65535]`, and let `r` be a round with `1 ≤ r ≤ 3`.  If
all listen windows of the candidates before `o` time out, the socket for `ip:(p+o)`
is bound, its probes up to round `r` are sent, its windows before round `r` time out
and the window of round `r` receives a datagram sent from `src`, then the UDP
strategy returns the connection on that socket whose remote address is `src`, the
sender of the datagram (so `ip:(p+o)` exactly when the datagram comes from there),
and no probe is sent to any candidate later in the offset list. -/
theorem performHolePunching_first_response (net : Net) (remoteAddr : String) (timeout : Int)
    (ip : String) (p : Int) (pre : List Int) (o : Int) (post : List Int)
    (r sock : Nat) (src : UDPAddr) (pl : List Nat)
    (hres : net.resolve remoteAddr = .ok ⟨ip, p⟩)
    (hsplit : portOffsets = pre ++ o :: post)
    (hin : 1024 ≤ p + o ∧ p + o ≤ 65535)
    (hr : 1 ≤ r ∧ r ≤ 3)
    (hearlier : ∀ o' ∈ pre, ∀ r', ∃ e, net.recv ⟨ip, p + o'⟩ r' = .error e)
    (hbind : net.bind ⟨ip, p + o⟩ = .ok sock)
    (hsend : ∀ r' i, r' ≤ r → net.send ⟨ip, p + o⟩ r' i = none)
    (hprev : ∀ r', r' < r → ∃ e, net.recv ⟨ip, p + o⟩ r' = .error e)
    (hrecv : net.recv ⟨ip, p + o⟩ r = .ok (src, pl)) :
    (performHolePunching net remoteAddr timeout).1 = .ok (Conn.udp sock src) ∧
    ∀ o'' ∈ post, ∀ s payload,
      Event.udpWrite s payload ⟨ip, p + o''⟩ ∉ (performHolePunching net remoteAddr timeout).2 := by
  have hok : (attemptHolePunchingOnPort net ⟨ip, p + o⟩ timeout).1 = .ok (Conn.udp sock src) := by
    have h := punchRounds_receives net sock ⟨ip, p + o⟩ 3 r src pl hsend hprev hrecv 3 1
      hr.1 (by omega)
    simp only [attemptHolePunchingOnPort, hbind, h]
  obtain ⟨h1, h2⟩ := tryOffsets_first_success
    (fun target => attemptHolePunchingOnPort net target timeout) ⟨ip, p⟩ pre o post
    (Conn.udp sock src)
    (fun o' ho' _ => attemptHolePunchingOnPort_fails net ⟨ip, p + o'⟩ timeout (hearlier o' ho'))
    hin hok
  have hnodup : (pre ++ o :: post).Nodup := by
    rw [← hsplit]
    decide
  refine ⟨by simp only [performHolePunching, hres, hsplit, h1], ?_⟩
  intro o'' ho'' s payload hmem
  simp only [performHolePunching, hres, hsplit, List.mem_cons] at hmem
  rcases hmem with hmem | hmem
  · cases hmem
  · obtain ⟨o', ho', hev⟩ := h2 _ hmem
    have hd := attemptHolePunchingOnPort_destination net ⟨ip, p + o'⟩ timeout s payload _ hev
    have hoo : o'' = o' := by
      have hport := congrArg UDPAddr.Port hd
      simp only at hport
      omega
    subst hoo
    rw [List.nodup_append] at hnodup
    obtain ⟨-, hn2, hdisj⟩ := hnodup
    rw [List.mem_append, List.mem_singleton] at ho'
    rcases ho' with hp | hp
    · exact hdisj hp (List.mem_cons_of_mem _ ho'')
    · subst hp
      exact (List.nodup_cons.mp hn2).1 ho''

/-- The amended C7 on the scenario of the specification: the answer on port 30002 in
round 2 gives a connection bound to `198.51.100.9:30002`, and no probe goes to the
offsets `-2`, `+3`, `-3`. -/
theorem performHolePunching_first_response_witness :
    (performHolePunching scenarioNet "198.51.100.9:30000" 30000000000).1 =
      .ok (Conn.udp 30002 ⟨"198.51.100.9", 30002⟩) ∧
    ∀ o'' ∈ [(-2 : Int), 3, -3], ∀ s payload,
      Event.udpWrite s payload ⟨"198.51.100.9", 30000 + o''⟩ ∉
        (performHolePunching scenarioNet "198.51.100.9:30000" 30000000000).2 :=
  performHolePunching_first_response scenarioNet "198.51.100.9:30000" 30000000000
    "198.51.100.9" 30000 [0, 1, -1] 2 [-2, 3, -3] 2 30002 ⟨"198.51.100.9", 30002⟩
    (bytes "HOLE_PUNCH_PROBE_R2_P0") rfl rfl (by decide) (by decide)
    (by
      intro o' ho' r'
      simp only [List.mem_cons, List.mem_singleton, List.not_mem_nil, or_false] at ho'
      rcases ho' with rfl | rfl | rfl <;> exact ⟨_, rfl⟩)
    rfl (fun _ _ _ => rfl)
    (by
      intro r' hlt
      interval_cases r' <;> exact ⟨_, rfl⟩)
    rfl

/-! ## Synchronized-start negotiation -/

/-- C8: in `runConnector` and in `handleIncomingConnection` alike, the adopted epoch
is `max T0 T1` when a peer proposal `T1` is received from the proposal channel and
`T0` when the wait times out; so for every outcome of the wait it is at least `T0`,
and at least any delivered `T1`. -/
theorem adopted_epoch (T0 T1 : Int) (wait : Option Int) :
    runConnector_select T0 (some T1) = max T0 T1 ∧
    runConnector_select T0 none = T0 ∧
    handleIncomingConnection_select T0 (some T1) = max T0 T1 ∧
    handleIncomingConnection_select T0 none = T0 ∧
    T0 ≤ runConnector_select T0 wait ∧
    T0 ≤ handleIncomingConnection_select T0 wait ∧
    T1 ≤ runConnector_select T0 (some T1) ∧
    T1 ≤ handleIncomingConnection_select T0 (some T1) := by
  have hmax : (if T1 > T0 then T1 else T0) = max T0 T1 := by
    by_cases h : T1 > T0
    · rw [if_pos h, max_eq_right (le_of_lt h)]
    · rw [if_neg h, max_eq_left (not_lt.mp h)]
  have hge : ∀ w : Option Int, T0 ≤ runConnector_select T0 w := by
    intro w
    cases w with
    | none => exact le_refl _
    | some t =>
      simp only [runConnector_select]
      split <;> omega
  refine ⟨hmax, rfl, hmax, rfl, hge wait, hge wait, ?_, ?_⟩
  · show T1 ≤ (if T1 > T0 then T1 else T0)
    rw [hmax]
    exact le_max_right _ _
  · show T1 ≤ (if T1 > T0 then T1 else T0)
    rw [hmax]
    exact le_max_right _ _

/-- Splitting after a first piece that does not contain the separator. -/
theorem stringsSplit_word (sep : Char) (w rest : List Char) (hw : sep ∉ w) :
    stringsSplit sep (w ++ sep :: rest) = w :: stringsSplit sep rest := by
  induction w with
  | nil => simp [stringsSplit]
  | cons c w ih =>
    have hc : c ≠ sep := fun h => hw (h ▸ List.mem_cons_self _ _)
    have hw' : sep ∉ w := fun h => hw (List.mem_cons_of_mem _ h)
    show stringsSplit sep (c :: (w ++ sep :: rest)) = (c :: w) :: stringsSplit sep rest
    rw [stringsSplit, if_neg hc, ih hw']

/-- The pieces of a proposal message: the fourth piece (index 3) is `TIME`, the
decimal number comes after it. -/
theorem startTimeMsg_split (startTime : Int) :
    stringsSplit '_' (startTimeMsg startTime).toList =
      "HOLE".toList :: "PUNCH".toList :: "START".toList :: "TIME".toList ::
        stringsSplit '_' (toString startTime).toList := by
  have h : (startTimeMsg startTime).toList =
      "HOLE".toList ++ '_' :: ("PUNCH".toList ++ '_' :: ("START".toList ++ '_' ::
        ("TIME".toList ++ '_' :: (toString startTime).toList))) := by
    simp only [startTimeMsg, String.toList, String.data_append]
    rfl
  rw [h, stringsSplit_word _ _ _ (by decide), stringsSplit_word _ _ _ (by decide),
    stringsSplit_word _ _ _ (by decide), stringsSplit_word _ _ _ (by decide)]

/-- The listening goroutine never extracts the epoch from a proposal message built by
the proposer: it parses the piece `TIME`. -/
theorem proposalFromMessage_startTimeMsg (startTime : Int) :
    proposalFromMessage (startTimeMsg startTime) = none := by
  unfold proposalFromMessage
  rw [startTimeMsg_split]
  have hparse : ParseInt "TIME".toList = none := by decide
  by_cases hc : stringsContains (startTimeMsg startTime).toList
      "HOLE_PUNCH_START_TIME_".toList = true
  · simp only [hc, if_true, List.length_cons, List.getD_cons_succ, List.getD_cons_zero, hparse]
    simp
  · simp only [hc]
    simp

/-- C9 (code evaluated at the failing input): with local proposal 1000, when the
Listen call returns the peer's message `"HOLE_PUNCH_START_TIME_1010"`, the parser
extracts nothing from it and both roles adopt 1000 instead of `max 1000 1010 = 1010`;
more generally no epoch is extracted from any message built by the proposer, so the
adopted epoch is always the local proposal. -/
theorem negotiation_ignores_peer_proposal :
    startTimeMsg 1010 = "HOLE_PUNCH_START_TIME_1010" ∧
    stringsSplit '_' (startTimeMsg 1010).toList =
      ["HOLE".toList, "PUNCH".toList, "START".toList, "TIME".toList, "1010".toList] ∧
    proposalFromMessage (startTimeMsg 1010) = none ∧
    runConnector_negotiate 1000 [.ok (startTimeMsg 1010)] = 1000 ∧
    handleIncomingConnection_negotiate 1000 [.ok (startTimeMsg 1010)] = 1000 ∧
    (∀ T0 T1 : Int, runConnector_negotiate T0 [.ok (startTimeMsg T1)] = T0 ∧
      handleIncomingConnection_negotiate T0 [.ok (startTimeMsg T1)] = T0) := by
  refine ⟨by decide, by decide, by decide, by decide, by decide, ?_⟩
  intro T0 T1
  simp [runConnector_negotiate, handleIncomingConnection_negotiate, listenForProposal,
    proposalFromMessage_startTimeMsg, runConnector_select, handleIncomingConnection_select]

/-! ## Public address discovery -/

/-- C10: on a STUN exchange that reaches a successfully decoded response,
`GetPublicAddressOnPort` returns the address of XOR-MAPPED-ADDRESS when that attribute
can be read, whatever MAPPED-ADDRESS holds; otherwise the address of MAPPED-ADDRESS
when that one can be read; otherwise an error.  (Ports are 16-bit values.) -/
theorem GetPublicAddressOnPort_selection (w : StunNet) (server : String) (localPort : Int)
    (udpConn : Nat) (serverAddr : UDPAddr) (raw : List Nat)
    (hbind : w.bind (if localPort = 0 then none else some ⟨"0.0.0.0", localPort⟩) = .ok udpConn)
    (hres : w.resolve server = .ok serverAddr) (hsend : w.send = none)
    (hrecv : w.recv = .ok raw) (hdec : w.decode raw = none) :
    (∀ a, w.getXorMapped raw = .ok a → 0 ≤ a.Port → a.Port < 65536 →
      (GetPublicAddressOnPort w server localPort).1 = .ok (a.IP, a.Port)) ∧
    (∀ e a, w.getXorMapped raw = .error e → w.getMapped raw = .ok a →
      0 ≤ a.Port → a.Port < 65536 →
      (GetPublicAddressOnPort w server localPort).1 = .ok (a.IP, a.Port)) ∧
    (∀ e e2, w.getXorMapped raw = .error e → w.getMapped raw = .error e2 →
      (GetPublicAddressOnPort w server localPort).1 =
        .error (Err.wrap "no address in STUN response" e2)) := by
  have hsel : (GetPublicAddressOnPort w server localPort).1 = selectAddress w raw := by
    simp only [GetPublicAddressOnPort, hbind, hres, hsend, hrecv, hdec]
  rw [hsel]
  refine ⟨?_, ?_, ?_⟩
  · intro a hx h0 h1
    simp only [selectAddress, hx, uint16, Int.emod_eq_of_lt h0 h1]
  · intro e a hx hm h0 h1
    simp only [selectAddress, hx, hm, uint16, Int.emod_eq_of_lt h0 h1]
  · intro e e2 hx hm
    simp only [selectAddress, hx, hm]

/-- C10 on the sample exchange: both attributes can be read, and the result for
local port 9000 is the XOR-MAPPED-ADDRESS `203.0.113.5:40000`. -/
theorem GetPublicAddressOnPort_selection_witness :
    sampleStun.getMapped [1, 1, 0, 12] = .ok ⟨"192.0.2.1", 1234⟩ ∧
    (GetPublicAddressOnPort sampleStun "stun.l.google.com:19302" 9000).1 =
      .ok ("203.0.113.5", 40000) :=
  ⟨rfl, (GetPublicAddressOnPort_selection sampleStun "stun.l.google.com:19302" 9000 3
    ⟨"74.125.250.129", 19302⟩ [1, 1, 0, 12] rfl rfl rfl rfl rfl).1
    ⟨"203.0.113.5", 40000⟩ rfl (by decide) (by decide)⟩

/-! ## Decimal formatting -/

/-- The decimal digits are built in front of the accumulator. -/
theorem toDigitsCore_append (fuel n : Nat) (ds : List Char) :
    Nat.toDigitsCore 10 fuel n ds = Nat.toDigitsCore 10 fuel n [] ++ ds := by
  induction fuel generalizing n ds with
  | zero => simp [Nat.toDigitsCore]
  | succ k ih =>
    simp only [Nat.toDigitsCore]
    by_cases h : n / 10 = 0
    · simp [h]
    · simp only [h, if_false]
      rw [ih (n / 10) (Nat.digitChar (n % 10) :: ds), ih (n / 10) [Nat.digitChar (n % 10)]]
      simp

theorem digitChar_decimal :
    ∀ d, d < 10 → Nat.digitChar d ≠ ':' ∧ ('0' ≤ Nat.digitChar d ∧ Nat.digitChar d ≤ '9') ∧
      (Nat.digitChar d).toNat - '0'.toNat = d := by
  decide

/-- The decimal digits of a number contain no colon. -/
theorem toDigitsCore_no_colon (fuel n : Nat) : ':' ∉ Nat.toDigitsCore 10 fuel n [] := by
  induction fuel generalizing n with
  | zero => simp [Nat.toDigitsCore]
  | succ k ih =>
    have hd := (digitChar_decimal (n % 10) (Nat.mod_lt _ (by decide))).1
    simp only [Nat.toDigitsCore]
    by_cases h : n / 10 = 0
    · simp only [h, if_true, List.mem_singleton]
      exact fun hc => hd hc.symm
    · simp only [h, if_false]
      rw [toDigitsCore_append]
      simp only [List.mem_append, List.mem_singleton, not_or]
      exact ⟨ih (n / 10), fun hc => hd hc.symm⟩

theorem parseDigits_append (acc : Nat) (l1 l2 : List Char) :
    parseDigits acc (l1 ++ l2) = (parseDigits acc l1).bind (fun a => parseDigits a l2) := by
  induction l1 generalizing acc with
  | nil => rfl
  | cons c cs ih =>
    show parseDigits acc (c :: (cs ++ l2)) = (parseDigits acc (c :: cs)).bind _
    rw [parseDigits, parseDigits]
    by_cases h : '0' ≤ c ∧ c ≤ '9'
    · rw [if_pos h, if_pos h, ih]
    · rw [if_neg h, if_neg h]
      rfl

/-- Reading back the decimal digits of a number gives the number. -/
theorem parseDigits_toDigitsCore (fuel n : Nat) (h : n < fuel) :
    parseDigits 0 (Nat.toDigitsCore 10 fuel n []) = some n := by
  induction fuel generalizing n with
  | zero => omega
  | succ k ih =>
    obtain ⟨-, hrange, hval⟩ := digitChar_decimal (n % 10) (Nat.mod_lt _ (by decide))
    simp only [Nat.toDigitsCore]
    by_cases h0 : n / 10 = 0
    · simp only [h0, if_true, parseDigits, hrange, and_self, hval]
      congr 1
      omega
    · simp only [h0, if_false]
      rw [toDigitsCore_append, parseDigits_append, ih (n / 10) (by omega)]
      simp only [Option.some_bind, parseDigits, hrange, and_self, if_true, hval]
      congr 1
      omega

/-- Decimal formatting of natural numbers is injective. -/
theorem toString_nat_injective (n m : Nat) (h : toString n = toString m) : n = m := by
  have hd : Nat.toDigits 10 n = Nat.toDigits 10 m := by
    have := congrArg String.data h
    exact this
  have hn := parseDigits_toDigitsCore (n + 1) n (Nat.lt_succ_self n)
  have hm := parseDigits_toDigitsCore (m + 1) m (Nat.lt_succ_self m)
  unfold Nat.toDigits at hd
  rw [hd, hm] at hn
  exact (Option.some.inj hn).symm

/-- Two lists that agree and are both cut at the first occurrence of `x` have the same
part before it and the same part after it. -/
theorem split_at_first (x : Char) (a a2 b b2 : List Char) (ha : x ∉ a) (ha2 : x ∉ a2)
    (h : a ++ x :: b = a2 ++ x :: b2) : a = a2 ∧ b = b2 := by
  induction a generalizing a2 with
  | nil =>
    cases a2 with
    | nil => exact ⟨rfl, by simpa using h⟩
    | cons y ys =>
      simp only [List.nil_append, List.cons_append, List.cons.injEq] at h
      exact absurd (h.1 ▸ List.mem_cons_self _ _) ha2
  | cons z zs ih =>
    cases a2 with
    | nil =>
      simp only [List.nil_append, List.cons_append, List.cons.injEq] at h
      exact absurd (h.1 ▸ List.mem_cons_self _ _) ha
    | cons y ys =>
      simp only [List.cons_append, List.cons.injEq] at h
      obtain ⟨hzy, hrest⟩ := h
      obtain ⟨h1, h2⟩ := ih ys (fun hm => ha (List.mem_cons_of_mem _ hm))
        (fun hm => ha2 (List.mem_cons_of_mem _ hm)) hrest
      exact ⟨by rw [hzy, h1], h2⟩

/-- The formatted address `ip:port` determines the pair, for ports that are not
negative. -/
theorem formatted_address_injective (ip1 ip2 : String) (port1 port2 : Int)
    (h1 : 0 ≤ port1) (h2 : 0 ≤ port2)
    (h : ip1 ++ ":" ++ toString port1 = ip2 ++ ":" ++ toString port2) :
    ip1 = ip2 ∧ port1 = port2 := by
  obtain ⟨n, rfl⟩ := Int.eq_ofNat_of_zero_le h1
  obtain ⟨m, rfl⟩ := Int.eq_ofNat_of_zero_le h2
  have hn : toString (n : Int) = toString n := rfl
  have hm : toString (m : Int) = toString m := rfl
  rw [hn, hm] at h
  have hdata := congrArg String.data h
  simp only [String.data_append] at hdata
  rw [List.append_assoc, List.append_assoc] at hdata
  have hrev := congrArg List.reverse hdata
  simp only [List.reverse_append, List.reverse_cons, List.reverse_nil, List.nil_append,
    List.singleton_append, List.append_assoc] at hrev
  have hnc : ∀ k : Nat, ':' ∉ (toString k).data.reverse := by
    intro k hk
    exact toDigitsCore_no_colon (k + 1) k (List.mem_reverse.mp hk)
  obtain ⟨hd, hip⟩ := split_at_first ':' _ _ _ _ (hnc n) (hnc m) hrev
  have hip' : ip1.data = ip2.data := List.reverse_injective hip
  have hd' : (toString n).data = (toString m).data := List.reverse_injective hd
  refine ⟨String.ext hip', ?_⟩
  have := toString_nat_injective n m (String.ext hd')
  rw [this]

/-! ## Public address discovery: the local port and the NAT classification -/

/-- C11: for a non-zero `localPort`, the only bind that `GetPublicAddressOnPort`
requests is on `0.0.0.0:localPort`, and it is its first call; every datagram it sends
is the STUN request, sent on the socket returned by that bind; and when that bind
fails it returns an error having made no other call.  For `localPort = 0` the only
bind is the one with a `nil` address (an ephemeral port), and that bind is requested
for no other `localPort`.  When the bind of `0.0.0.0:localPort` succeeds and the
server address resolves, the STUN request is sent: the first three calls are the
bind, the resolution and the `WriteToUDP` of the request to the server on the socket
that the bind returned, and this is the only datagram sent. -/
theorem GetPublicAddressOnPort_local_port (w : StunNet) (server : String) (localPort : Int) :
    (localPort ≠ 0 →
      udpBinds (GetPublicAddressOnPort w server localPort).2 =
        [Event.listenUDP "0.0.0.0" localPort] ∧
      (GetPublicAddressOnPort w server localPort).2.head? =
        some (Event.listenUDP "0.0.0.0" localPort) ∧
      (∀ sock payload dst,
        Event.udpWrite sock payload dst ∈ (GetPublicAddressOnPort w server localPort).2 →
          w.bind (some ⟨"0.0.0.0", localPort⟩) = .ok sock ∧ payload = w.request) ∧
      (∀ e, w.bind (some ⟨"0.0.0.0", localPort⟩) = .error e →
        GetPublicAddressOnPort w server localPort =
          (.error (Err.wrap "failed to create UDP socket" e),
            [Event.listenUDP "0.0.0.0" localPort]))) ∧
    (localPort = 0 →
      udpBinds (GetPublicAddressOnPort w server localPort).2 = [Event.listenUDPAny]) ∧
    (Event.listenUDPAny ∈ (GetPublicAddressOnPort w server localPort).2 → localPort = 0) ∧
    (localPort ≠ 0 → ∀ sock serverAddr,
      w.bind (some ⟨"0.0.0.0", localPort⟩) = .ok sock → w.resolve server = .ok serverAddr →
        (GetPublicAddressOnPort w server localPort).2.take 3 =
          [Event.listenUDP "0.0.0.0" localPort, Event.resolveUDP server,
            Event.udpWrite sock w.request serverAddr] ∧
        Event.udpWrite sock w.request serverAddr ∈ (GetPublicAddressOnPort w server localPort).2 ∧
        probesSent (GetPublicAddressOnPort w server localPort).2 = [w.request]) := by
  refine ⟨?_, ?_, ?_, ?_⟩
  · intro h
    cases hb : w.bind (some ⟨"0.0.0.0", localPort⟩) with
    | error e => simp [GetPublicAddressOnPort, h, hb, udpBinds]
    | ok sock =>
      cases hr : w.resolve server with
      | error e => simp [GetPublicAddressOnPort, h, hb, hr, udpBinds]
      | ok addr =>
        cases hs : w.send with
        | some e =>
          simp [GetPublicAddressOnPort, h, hb, hr, hs, udpBinds]
          exact fun _ _ _ h1 h2 _ => ⟨h1.symm, h2⟩
        | none =>
          cases hv : w.recv with
          | error e =>
            simp [GetPublicAddressOnPort, h, hb, hr, hs, hv, udpBinds]
            exact fun _ _ _ h1 h2 _ => ⟨h1.symm, h2⟩
          | ok raw =>
            cases hd : w.decode raw with
            | some e =>
              simp [GetPublicAddressOnPort, h, hb, hr, hs, hv, hd, udpBinds]
              exact fun _ _ _ h1 h2 _ => ⟨h1.symm, h2⟩
            | none =>
              simp [GetPublicAddressOnPort, h, hb, hr, hs, hv, hd, udpBinds]
              exact fun _ _ _ h1 h2 _ => ⟨h1.symm, h2⟩
  · intro h
    subst h
    cases hb : w.bind none with
    | error e => simp [GetPublicAddressOnPort, hb, udpBinds]
    | ok sock =>
      cases hr : w.resolve server with
      | error e => simp [GetPublicAddressOnPort, hb, hr, udpBinds]
      | ok addr =>
        cases hs : w.send with
        | some e => simp [GetPublicAddressOnPort, hb, hr, hs, udpBinds]
        | none =>
          cases hv : w.recv with
          | error e => simp [GetPublicAddressOnPort, hb, hr, hs, hv, udpBinds]
          | ok raw =>
            cases hd : w.decode raw with
            | some e => simp [GetPublicAddressOnPort, hb, hr, hs, hv, hd, udpBinds]
            | none => simp [GetPublicAddressOnPort, hb, hr, hs, hv, hd, udpBinds]
  · intro hmem
    by_contra h
    cases hb : w.bind (some ⟨"0.0.0.0", localPort⟩) with
    | error e => simp [GetPublicAddressOnPort, h, hb] at hmem
    | ok sock =>
      cases hr : w.resolve server with
      | error e => simp [GetPublicAddressOnPort, h, hb, hr] at hmem
      | ok addr =>
        cases hs : w.send with
        | some e => simp [GetPublicAddressOnPort, h, hb, hr, hs] at hmem
        | none =>
          cases hv : w.recv with
          | error e => simp [GetPublicAddressOnPort, h, hb, hr, hs, hv] at hmem
          | ok raw =>
            cases hd : w.decode raw with
            | some e => simp [GetPublicAddressOnPort, h, hb, hr, hs, hv, hd] at hmem
            | none => simp [GetPublicAddressOnPort, h, hb, hr, hs, hv, hd] at hmem
  · intro h sock serverAddr hb hr
    cases hs : w.send with
    | some e => simp [GetPublicAddressOnPort, h, hb, hr, hs, probesSent]
    | none =>
      cases hv : w.recv with
      | error e => simp [GetPublicAddressOnPort, h, hb, hr, hs, hv, probesSent]
      | ok raw =>
        cases hd : w.decode raw with
        | some e => simp [GetPublicAddressOnPort, h, hb, hr, hs, hv, hd, probesSent]
        | none => simp [GetPublicAddressOnPort, h, hb, hr, hs, hv, hd, probesSent]

/-- C11 on the sample exchange for local port 9000, where the request is sent from the
socket bound to that port, and on the exchange whose bind of port 9000 fails. -/
theorem GetPublicAddressOnPort_local_port_witness :
    udpBinds (GetPublicAddressOnPort sampleStun "stun.l.google.com:19302" 9000).2 =
      [Event.listenUDP "0.0.0.0" 9000] ∧
    GetPublicAddressOnPort busyPortStun "stun.l.google.com:19302" 9000 =
      (.error (Err.wrap "failed to create UDP socket" (Err.sys "address already in use")),
        [Event.listenUDP "0.0.0.0" 9000]) ∧
    (GetPublicAddressOnPort sampleStun "stun.l.google.com:19302" 9000).2.take 3 =
      [Event.listenUDP "0.0.0.0" 9000, Event.resolveUDP "stun.l.google.com:19302",
        Event.udpWrite 3 [0, 1, 0, 0] ⟨"74.125.250.129", 19302⟩] ∧
    probesSent (GetPublicAddressOnPort sampleStun "stun.l.google.com:19302" 9000).2 =
      [[0, 1, 0, 0]] :=
  ⟨((GetPublicAddressOnPort_local_port sampleStun "stun.l.google.com:19302" 9000).1
      (by decide)).1,
   ((GetPublicAddressOnPort_local_port busyPortStun "stun.l.google.com:19302" 9000).1
      (by decide)).2.2.2 _ rfl,
   ((GetPublicAddressOnPort_local_port sampleStun "stun.l.google.com:19302" 9000).2.2.2
      (by decide) 3 ⟨"74.125.250.129", 19302⟩ rfl rfl).1,
   ((GetPublicAddressOnPort_local_port sampleStun "stun.l.google.com:19302" 9000).2.2.2
      (by decide) 3 ⟨"74.125.250.129", 19302⟩ rfl rfl).2.2⟩

/-- The port returned by an address query is a 16-bit value. -/
theorem GetPublicAddressOnPort_port_range (w : StunNet) (server : String) (localPort : Int)
    (ip : String) (port : Int)
    (h : (GetPublicAddressOnPort w server localPort).1 = .ok (ip, port)) :
    0 ≤ port ∧ port < 65536 := by
  have hsel : ∀ raw, selectAddress w raw = .ok (ip, port) → 0 ≤ port ∧ port < 65536 := by
    intro raw hraw
    unfold selectAddress at hraw
    cases hx : w.getXorMapped raw with
    | error e =>
      rw [hx] at hraw
      cases hm : w.getMapped raw with
      | error e2 => rw [hm] at hraw; cases hraw
      | ok a =>
        rw [hm] at hraw
        simp only [Except.ok.injEq, Prod.mk.injEq, uint16] at hraw
        rw [← hraw.2]
        exact ⟨Int.emod_nonneg _ (by decide), Int.emod_lt_of_pos _ (by decide)⟩
    | ok a =>
      rw [hx] at hraw
      simp only [Except.ok.injEq, Prod.mk.injEq, uint16] at hraw
      rw [← hraw.2]
      exact ⟨Int.emod_nonneg _ (by decide), Int.emod_lt_of_pos _ (by decide)⟩
  unfold GetPublicAddressOnPort at h
  cases hb : w.bind (if localPort = 0 then none else some ⟨"0.0.0.0", localPort⟩) with
  | error e => simp [hb] at h
  | ok sock =>
    cases hr : w.resolve server with
    | error e => simp [hb, hr] at h
    | ok addr =>
      cases hs : w.send with
      | some e => simp [hb, hr, hs] at h
      | none =>
        cases hv : w.recv with
        | error e => simp [hb, hr, hs, hv] at h
        | ok raw =>
          cases hd : w.decode raw with
          | some e => simp [hb, hr, hs, hv, hd] at h
          | none =>
            simp only [hb, hr, hs, hv, hd] at h
            exact hsel raw h

/-- The comparison of the formatted addresses is the comparison of the pairs. -/
theorem classifyNAT_eq (ip1 ip2 : String) (port1 port2 : Int) (h1 : 0 ≤ port1) (h2 : 0 ≤ port2) :
    classifyNAT ip1 port1 ip2 port2 =
      if ip1 = ip2 ∧ port1 = port2 then "open" else "restricted" := by
  unfold classifyNAT
  by_cases h : ip1 = ip2 ∧ port1 = port2
  · obtain ⟨ha, hb⟩ := h
    subst ha hb
    simp
  · have hne : ¬ (ip1 ++ ":" ++ toString port1 = ip2 ++ ":" ++ toString port2) :=
      fun heq => h (formatted_address_injective ip1 ip2 port1 port2 h1 h2 heq)
    simp only [hne, h, if_false]

/-- C12: when the primary query of `DetectNATType` succeeds with `(ip1, port1)` and its
second query (on the alternate server or, after that one failed, the retry on the
primary server) succeeds with `(ip2, port2)`, the result is "open" if `ip1 = ip2` and
`port1 = port2` and "restricted" otherwise; and no run returns any other
classification. -/
theorem DetectNATType_classification (worlds : Nat → StunNet) (server : String)
    (ip1 ip2 : String) (port1 port2 : Int)
    (h1 : (GetPublicAddress (worlds 0) server).1 = .ok (ip1, port1))
    (h2 : (GetPublicAddress (worlds 1) (altServerFor server)).1 = .ok (ip2, port2) ∨
      ((∃ e, (GetPublicAddress (worlds 1) (altServerFor server)).1 = .error e) ∧
        (GetPublicAddress (worlds 2) server).1 = .ok (ip2, port2))) :
    (DetectNATType worlds server).1 =
      .ok (if ip1 = ip2 ∧ port1 = port2 then "open" else "restricted") ∧
    (∀ (worlds2 : Nat → StunNet) (server2 : String) (r : String),
      (DetectNATType worlds2 server2).1 = .ok r → r = "open" ∨ r = "restricted") := by
  constructor
  · have hp1 := (GetPublicAddressOnPort_port_range _ _ _ _ _ h1).1
    rcases h2 with h2 | ⟨⟨e, he⟩, h3⟩
    · have hp2 := (GetPublicAddressOnPort_port_range _ _ _ _ _ h2).1
      simp only [DetectNATType, h1, h2, classifyNAT_eq ip1 ip2 port1 port2 hp1 hp2]
    · have hp2 := (GetPublicAddressOnPort_port_range _ _ _ _ _ h3).1
      simp only [DetectNATType, h1, he, h3, classifyNAT_eq ip1 ip2 port1 port2 hp1 hp2]
  · intro worlds2 server2 r hr
    have hcl : ∀ a b c d, classifyNAT a b c d = "open" ∨ classifyNAT a b c d = "restricted" := by
      intro a b c d
      unfold classifyNAT
      by_cases hc : a ++ ":" ++ toString b = c ++ ":" ++ toString d
      · left; simp only [hc, if_true]
      · right; simp only [hc, if_false]
    cases hq1 : (GetPublicAddress (worlds2 0) server2).1 with
    | error e => simp [DetectNATType, hq1] at hr
    | ok a =>
      obtain ⟨a1, a2⟩ := a
      cases hq2 : (GetPublicAddress (worlds2 1) (altServerFor server2)).1 with
      | ok b =>
        obtain ⟨b1, b2⟩ := b
        simp only [DetectNATType, hq1, hq2, Except.ok.injEq] at hr
        rw [← hr]
        exact hcl _ _ _ _
      | error e =>
        cases hq3 : (GetPublicAddress (worlds2 2) server2).1 with
        | error e3 => simp [DetectNATType, hq1, hq2, hq3] at hr
        | ok b =>
          obtain ⟨b1, b2⟩ := b
          simp only [DetectNATType, hq1, hq2, hq3, Except.ok.injEq] at hr
          rw [← hr]
          exact hcl _ _ _ _

/-- C12 on two sample runs: equal mappings give "open", mappings that differ in the
port give "restricted". -/
theorem DetectNATType_classification_witness :
    (DetectNATType (fun _ => sampleStun) "stun.l.google.com:19302").1 = .ok "open" ∧
    (DetectNATType (fun k => if k = 0 then sampleStun else otherMappingStun)
      "stun.l.google.com:19302").1 = .ok "restricted" :=
  ⟨(DetectNATType_classification (fun _ => sampleStun) "stun.l.google.com:19302"
      "203.0.113.5" "203.0.113.5" 40000 40000 rfl (Or.inl rfl)).1,
   (DetectNATType_classification (fun k => if k = 0 then sampleStun else otherMappingStun)
      "stun.l.google.com:19302" "203.0.113.5" "203.0.113.5" 40000 40001 rfl (Or.inl rfl)).1⟩

/-! ## The listener role -/

/-- C13 (code evaluated): the call `ListenForConnectionInfo(config.ID, 30)` of
`handleIncomingConnection` passes `timeoutSec = 0` to the signaling channel's Listen
operation, not 30: the constant is a `time.Duration` of 30 nanoseconds, whose whole
number of seconds is 0 (a duration of 30 seconds would give 30). -/
theorem handleIncomingConnection_listen_timeout :
    durationSeconds 30 = 0 ∧ durationSeconds (30 * Second) = 30 ∧
    (∀ (listen : String → Int → Except Err String)
      (unmarshal : String → Except Err ConnectionInfo) (configID : String),
      (handleIncomingConnection_listen listen unmarshal configID).2 =
        [SignalCall.listen configID 0]) := by
  refine ⟨by decide, by decide, ?_⟩
  intro listen unmarshal configID
  have h0 : durationSeconds 30 = 0 := by decide
  unfold handleIncomingConnection_listen ListenForConnectionInfo
  rw [h0]
  cases hl : listen configID 0 with
  | error e => simp only [hl]
  | ok message =>
    cases hu : unmarshal message with
    | error e => simp only [hl, hu]
    | ok info => simp only [hl, hu]

/-- The configuration text starts with the same 20 bytes for every address. -/
theorem wgConfig_first_bytes (ip : String) :
    (bytes (wgConfig ip)).take 20 = bytes "To connect to WireGu" := by
  have h : (wgConfig ip).toList = "To connect to WireGu".toList ++
      ("ard:\n1. Install WireGuard on your system\n2. Use this configuration:\n\n" ++
        "[Interface]\nPrivateKey = <your-private-key>\nAddress = 10.0.0.2/24\n\n" ++
        "[Peer]\nPublicKey = <server-public-key>\nEndpoint = " ++ ip ++
        ":51820  # Standard WireGuard port - adjust if different\nAllowedIPs = 0.0.0.0/0\n\n" ++
        "Replace the placeholders with actual values from your WireGuard server.\n" ++
        "Note: The WireGuard server must be accessible at the endpoint above.\n" ++
        "If both you and the server are behind NATs, port forwarding is required.").toList := by
    simp only [wgConfig, String.toList, String.data_append, List.append_assoc]
    rfl
  unfold bytes
  rw [h, List.map_append, List.take_append_of_le_length (by decide)]
  rfl

/-- C14 (code evaluated): on every connection accepted by the listener, the first call
is the `Write` of the WireGuard configuration text, whose first 20 bytes are
`To connect to WireGu` and not the handshake token; the token is never read before
that, and never written. -/
theorem handleIncomingConnection_accept_first_write (conn : AcceptedConn) (ip : String) :
    (handleIncomingConnection_accept (.ok conn) ip).head? =
      some (Event.tcpWrite conn.id (bytes (wgConfig ip))) ∧
    (bytes (wgConfig ip)).take 20 = bytes "To connect to WireGu" ∧
    (bytes (wgConfig ip)).take 20 ≠ handshakeToken ∧
    Event.tcpWrite conn.id handshakeToken ∉ handleIncomingConnection_accept (.ok conn) ip := by
  have hne : (bytes (wgConfig ip)).take 20 ≠ handshakeToken := by
    rw [wgConfig_first_bytes]
    decide
  have hne2 : handshakeToken ≠ bytes (wgConfig ip) := by
    intro heq
    apply hne
    rw [← heq]
    decide
  refine ⟨?_, wgConfig_first_bytes ip, hne, ?_⟩
  · cases hw : conn.writeErr <;>
      simp [handleIncomingConnection_accept, handleWireGuardConnection, hw]
  · cases hw : conn.writeErr <;>
      simp [handleIncomingConnection_accept, handleWireGuardConnection, hw, hne2]

/-- For every server string other than `stun2.l.google.com:19302`, the alternate
server differs from the server. -/
theorem altServerFor_ne (s : String) (hs : s ≠ "stun2.l.google.com:19302") :
    altServerFor s ≠ s := by
  unfold altServerFor
  by_cases h : String.mk (stringsReplaceFirst "stun.l.google.com".toList
      "stun1.l.google.com".toList s.toList) = s
  · simp only [h, if_true]
    exact fun heq => hs heq.symm
  · simp only [h, if_false]
    exact h

/-- C20 (code evaluated at the failing input): for the server string
`stun2.l.google.com:19302` the replacement changes nothing and the alternate server
computed by `DetectNATType` is the same string `stun2.l.google.com:19302`, so the
second query goes to the configured server again (both queries of a run resolve
`stun2.l.google.com:19302`); for `stun.l.google.com:19302` the alternate is
`stun1.l.google.com:19302`. -/
theorem altServerFor_fixed_point :
    String.mk (stringsReplaceFirst "stun.l.google.com".toList "stun1.l.google.com".toList
      "stun2.l.google.com:19302".toList) = "stun2.l.google.com:19302" ∧
    altServerFor "stun2.l.google.com:19302" = "stun2.l.google.com:19302" ∧
    altServerFor "stun.l.google.com:19302" = "stun1.l.google.com:19302" ∧
    (DetectNATType (fun _ => sampleStun) "stun2.l.google.com:19302").2.filter
        (fun e => match e with | Event.resolveUDP _ => true | _ => false) =
      [Event.resolveUDP "stun2.l.google.com:19302", Event.resolveUDP "stun2.l.google.com:19302"] := by
  decide

/-! ## The probe schedule -/

/-- The pause computed by the probe loop is `min(200 + 10 i, 500)` milliseconds. -/
theorem interval_eq_specInterval (i : Nat) :
    (if 200 * Millisecond + ((i : Int) * 10) * Millisecond > 500 * Millisecond then
      500 * Millisecond else 200 * Millisecond + ((i : Int) * 10) * Millisecond) =
      specInterval i := by
  unfold specInterval Millisecond
  by_cases h : 200 + 10 * (i : Int) ≤ 500
  · rw [min_eq_left h, if_neg (by omega)]
    omega
  · rw [min_eq_right (by omega), if_pos (by omega)]

/-- When every send of a round succeeds, the probe loop alternates a probe and a
pause, for the indices from `i` on. -/
theorem sendProbes_trace (net : Net) (sock : Nat) (raddr : UDPAddr) (round : Nat)
    (hsend : ∀ i, net.send raddr round i = none) (remaining i : Nat) :
    (sendProbes net sock raddr round remaining i).2 =
      (List.range' i remaining).flatMap (fun k =>
        [Event.udpWrite sock (specProbe round k) raddr, Event.sleep (specInterval k)]) := by
  induction remaining generalizing i with
  | zero => rfl
  | succ n ih =>
    simp only [sendProbes, hsend, interval_eq_specInterval, ih (i + 1), List.range'_succ,
      List.flatMap_cons, List.cons_append, List.nil_append]
    rfl

theorem probesSent_append (a b : List Event) :
    probesSent (a ++ b) = probesSent a ++ probesSent b := by
  simp [probesSent, List.filterMap_append]

/-- The probes of a probe loop whose sends succeed. -/
theorem probesSent_sendProbes (net : Net) (sock : Nat) (raddr : UDPAddr) (round : Nat)
    (hsend : ∀ i, net.send raddr round i = none) (remaining i : Nat) :
    probesSent (sendProbes net sock raddr round remaining i).2 =
      (List.range' i remaining).map (specProbe round) := by
  rw [sendProbes_trace net sock raddr round hsend]
  induction remaining generalizing i with
  | zero => rfl
  | succ n ih =>
    simp only [List.range'_succ, List.flatMap_cons, List.map_cons]
    rw [probesSent_append, ih (i + 1)]
    rfl

/-- The probes of the round loop when the sends succeed: those of the rounds that
are gone through, in order. -/
theorem probesSent_punchRounds (net : Net) (sock : Nat) (raddr : UDPAddr) (rounds : Nat)
    (hsend : ∀ r i, net.send raddr r i = none) (remaining round : Nat) :
    probesSent (punchRounds net sock raddr rounds remaining round).2 =
      (List.range' round (roundsRun net raddr remaining round)).flatMap specRoundProbes := by
  induction remaining generalizing round with
  | zero => rfl
  | succ n ih =>
    obtain ⟨p1, -, -⟩ := sendProbes_all_sent net sock raddr round (hsend round)
      (10 + round * 5) 0
    have hp := probesSent_sendProbes net sock raddr round (hsend round) (10 + round * 5) 0
    rcases hs : sendProbes net sock raddr round (10 + round * 5) 0 with ⟨res, io⟩
    rw [hs] at p1 hp
    simp only at p1 hp
    subst p1
    have hround : probesSent io = specRoundProbes round := by
      rw [hp, specRoundProbes, List.range_eq_range', Nat.mul_comm]
    cases hr : net.recv raddr round with
    | ok dg =>
      simp only [punchRounds, roundsRun, hs, hr, probesSent_append, hround]
      simp [probesSent, List.range']
    | error e =>
      have hpause : probesSent (if round < rounds then [Event.sleep (1 * Second)] else []) = [] := by
        by_cases hlt : round < rounds <;> simp [hlt, probesSent]
      simp only [punchRounds, roundsRun, hs, hr, probesSent_append, hround, hpause, ih (round + 1)]
      rw [Nat.add_comm 1, List.range'_succ, List.flatMap_cons]
      simp [probesSent]

/-- The probes of an attempt whose socket is bound and whose sends succeed. -/
theorem probesSent_attempt (net : Net) (raddr : UDPAddr) (timeout : Int) (sock : Nat)
    (hbind : net.bind raddr = .ok sock) (hsend : ∀ r i, net.send raddr r i = none) :
    probesSent (attemptHolePunchingOnPort net raddr timeout).2 =
      (List.range' 1 (roundsRun net raddr 3 1)).flatMap specRoundProbes := by
  simp only [attemptHolePunchingOnPort, hbind]
  rw [← probesSent_punchRounds net sock raddr 3 hsend 3 1]
  rfl

/-- On a network whose listen windows all time out, three rounds are gone through. -/
theorem roundsRun_silent (net : Net) (raddr : UDPAddr)
    (hrecv : ∀ r, ∃ e, net.recv raddr r = .error e) (remaining round : Nat) :
    roundsRun net raddr remaining round = remaining := by
  induction remaining generalizing round with
  | zero => rfl
  | succ n ih =>
    obtain ⟨e, he⟩ := hrecv round
    simp only [roundsRun, he, ih (round + 1)]
    omega

theorem specRoundProbes_length (r : Nat) : (specRoundProbes r).length = 10 + 5 * r := by
  simp [specRoundProbes]

/-- C15: in an attempt whose socket is bound and whose sends succeed, each round `r`
that is gone through (the rounds up to the first one that receives a datagram) sends
exactly `10 + 5r` probes, the `i`-th of them (from 0) carrying the ASCII text
`HOLE_PUNCH_PROBE_R<r>_P<i>`; when all three listen windows time out these are the
probes of the rounds 1, 2 and 3, which are 15 + 20 + 25 = 60 probes. -/
theorem attemptHolePunchingOnPort_probes (net : Net) (raddr : UDPAddr) (timeout : Int)
    (sock : Nat) (hbind : net.bind raddr = .ok sock)
    (hsend : ∀ r i, net.send raddr r i = none) :
    probesSent (attemptHolePunchingOnPort net raddr timeout).2 =
      (List.range' 1 (roundsRun net raddr 3 1)).flatMap specRoundProbes ∧
    (∀ r, (specRoundProbes r).length = 10 + 5 * r) ∧
    (∀ r i, i < 10 + 5 * r → (specRoundProbes r)[i]? =
      some (bytes ("HOLE_PUNCH_PROBE_R" ++ toString r ++ "_P" ++ toString i))) ∧
    ((∀ r, ∃ e, net.recv raddr r = .error e) →
      probesSent (attemptHolePunchingOnPort net raddr timeout).2 =
        specRoundProbes 1 ++ specRoundProbes 2 ++ specRoundProbes 3 ∧
      (probesSent (attemptHolePunchingOnPort net raddr timeout).2).length = 60) := by
  have hmain := probesSent_attempt net raddr timeout sock hbind hsend
  refine ⟨hmain, specRoundProbes_length, ?_, ?_⟩
  · intro r i hi
    simp [specRoundProbes, specProbe, hi]
  · intro hrecv
    rw [hmain, roundsRun_silent net raddr hrecv 3 1]
    have h3 : (List.range' 1 3).flatMap specRoundProbes =
        specRoundProbes 1 ++ specRoundProbes 2 ++ specRoundProbes 3 := by
      simp [List.range', List.flatMap_cons]
    rw [h3]
    refine ⟨rfl, ?_⟩
    simp [specRoundProbes_length]

/-- C15 on the silent network: the candidate `198.51.100.9:30000` receives 60
probes. -/
theorem attemptHolePunchingOnPort_probes_witness :
    (probesSent (attemptHolePunchingOnPort (silentNet 30000) ⟨"198.51.100.9", 30000⟩ 0).2).length
      = 60 :=
  ((attemptHolePunchingOnPort_probes (silentNet 30000) ⟨"198.51.100.9", 30000⟩ 0 30000 rfl
    (fun _ _ => rfl)).2.2.2 (fun _ => ⟨_, rfl⟩)).2

/-- C16 (code evaluated at the failing input): on a candidate whose listen windows
all time out, the rounds 1, 2 and 3 send 15, 20 and 25 probes, not 10, 15 and 20; the
third round sends more than 20. -/
theorem third_round_sends_25_probes :
    probesSent (attemptHolePunchingOnPort (silentNet 30000) ⟨"198.51.100.9", 30000⟩ 0).2 =
      specRoundProbes 1 ++ specRoundProbes 2 ++ specRoundProbes 3 ∧
    (specRoundProbes 1).length = 15 ∧ (specRoundProbes 2).length = 20 ∧
    (specRoundProbes 3).length = 25 ∧
    ¬ (specRoundProbes 3).length ≤ 20 ∧
    bytes "HOLE_PUNCH_PROBE_R3_P24" ∈
      probesSent (attemptHolePunchingOnPort (silentNet 30000) ⟨"198.51.100.9", 30000⟩ 0).2 := by
  have hmain := probesSent_attempt (silentNet 30000) ⟨"198.51.100.9", 30000⟩ 0 30000 rfl
    (fun _ _ => rfl)
  rw [roundsRun_silent (silentNet 30000) ⟨"198.51.100.9", 30000⟩ (fun _ => ⟨_, rfl⟩) 3 1]
    at hmain
  have hcat : (List.range' 1 3).flatMap specRoundProbes =
      specRoundProbes 1 ++ specRoundProbes 2 ++ specRoundProbes 3 := by
    simp [List.range', List.flatMap_cons]
  rw [hcat] at hmain
  refine ⟨hmain, ?_, ?_, ?_, ?_, ?_⟩
  · simp [specRoundProbes_length]
  · simp [specRoundProbes_length]
  · simp [specRoundProbes_length]
  · simp [specRoundProbes_length]
  · rw [hmain]
    have hlast : bytes "HOLE_PUNCH_PROBE_R3_P24" = specProbe 3 24 := by decide
    rw [hlast]
    apply List.mem_append_right
    exact List.mem_map.mpr ⟨24, List.mem_range.mpr (by decide), rfl⟩

/-- C17: in a round whose sends succeed, the probe loop alternates the probe of index
`i` and a pause of `min(200 + 10 i, 500)` milliseconds, for `i = 0, 1, ...`; the first
pause is 200 ms, the pauses are strictly increasing up to index 30 (a round sends at
most 25 probes), and no pause exceeds 500 ms. -/
theorem sendProbes_pacing (net : Net) (sock : Nat) (raddr : UDPAddr) (round n : Nat)
    (hsend : ∀ i, net.send raddr round i = none) :
    (sendProbes net sock raddr round n 0).2 =
      (List.range n).flatMap (fun i =>
        [Event.udpWrite sock (specProbe round i) raddr,
          Event.sleep (min (200 + 10 * (i : Int)) 500 * Millisecond)]) ∧
    min (200 + 10 * ((0 : Nat) : Int)) 500 * Millisecond = 200 * Millisecond ∧
    (∀ i j : Nat, i < j → j ≤ 30 →
      min (200 + 10 * (i : Int)) 500 * Millisecond < min (200 + 10 * (j : Int)) 500 * Millisecond) ∧
    (∀ i : Nat, min (200 + 10 * (i : Int)) 500 * Millisecond ≤ 500 * Millisecond) ∧
    (∀ r : Nat, r ≤ 3 → 10 + r * 5 ≤ 25) := by
  refine ⟨?_, by decide, ?_, ?_, ?_⟩
  · rw [sendProbes_trace net sock raddr round hsend, List.range_eq_range']
    rfl
  · intro i j hij hj
    have hi : 200 + 10 * (i : Int) ≤ 500 := by omega
    have hj2 : 200 + 10 * (j : Int) ≤ 500 := by omega
    rw [min_eq_left hi, min_eq_left hj2]
    unfold Millisecond
    omega
  · intro i
    have h := min_le_right (200 + 10 * (i : Int)) 500
    unfold Millisecond
    omega
  · intro r hr
    omega

/-- C17 on the silent network: the first round of an attempt (15 probes). -/
theorem sendProbes_pacing_witness :
    (sendProbes (silentNet 30000) 30000 ⟨"198.51.100.9", 30000⟩ 1 15 0).2 =
      (List.range 15).flatMap (fun i =>
        [Event.udpWrite 30000 (specProbe 1 i) ⟨"198.51.100.9", 30000⟩,
          Event.sleep (min (200 + 10 * (i : Int)) 500 * Millisecond)]) :=
  (sendProbes_pacing (silentNet 30000) 30000 ⟨"198.51.100.9", 30000⟩ 1 15 (fun _ => rfl)).1

/-! ## What the UDP phase does not depend on -/

/-- The probe loop depends on the network through the answers to its sends only. -/
theorem sendProbes_congr (net1 net2 : Net) (sock : Nat) (raddr : UDPAddr) (round : Nat)
    (hs : net1.send = net2.send) (remaining i : Nat) :
    sendProbes net1 sock raddr round remaining i = sendProbes net2 sock raddr round remaining i := by
  induction remaining generalizing i with
  | zero => rfl
  | succ n ih => simp only [sendProbes, hs, ih (i + 1)]

/-- The round loop gives the same result on two networks that differ in the payloads
of the datagrams received only. -/
theorem punchRounds_congr (net1 net2 : Net) (sock : Nat) (raddr : UDPAddr) (rounds : Nat)
    (hs : net1.send = net2.send)
    (hr : ∀ t r, (net1.recv t r).map Prod.fst = (net2.recv t r).map Prod.fst)
    (remaining round : Nat) :
    punchRounds net1 sock raddr rounds remaining round =
      punchRounds net2 sock raddr rounds remaining round := by
  induction remaining generalizing round with
  | zero => rfl
  | succ n ih =>
    have hp := sendProbes_congr net1 net2 sock raddr round hs (10 + round * 5) 0
    have hrr := hr raddr round
    rcases h2 : sendProbes net2 sock raddr round (10 + round * 5) 0 with ⟨res, io⟩
    rw [h2] at hp
    cases res with
    | some err => simp only [punchRounds, hp, h2]
    | none =>
      cases h1r : net1.recv raddr round with
      | ok d1 =>
        cases h2r : net2.recv raddr round with
        | ok d2 =>
          rw [h1r, h2r] at hrr
          simp only [Except.map, Except.ok.injEq] at hrr
          obtain ⟨s1, p1⟩ := d1
          obtain ⟨s2, p2⟩ := d2
          simp only at hrr
          subst hrr
          simp only [punchRounds, hp, h2, h1r, h2r]
        | error e2 =>
          rw [h1r, h2r] at hrr
          simp [Except.map] at hrr
      | error e1 =>
        cases h2r : net2.recv raddr round with
        | ok d2 =>
          rw [h1r, h2r] at hrr
          simp [Except.map] at hrr
        | error e2 =>
          simp only [punchRounds, hp, h2, h1r, h2r, ih (round + 1)]

/-- When the sends succeed, the windows before round `r` time out and the window of
round `r` receives a datagram, the round loop listens once in each round up to `r`. -/
theorem punchRounds_receives_rounds (net : Net) (sock : Nat) (raddr : UDPAddr)
    (rounds r : Nat) (src : UDPAddr) (pl : List Nat)
    (hsend : ∀ r' i, r' ≤ r → net.send raddr r' i = none)
    (hprev : ∀ r', r' < r → ∃ e, net.recv raddr r' = .error e)
    (hrecv : net.recv raddr r = .ok (src, pl))
    (remaining round : Nat) (hle : round ≤ r) (hlt : r < round + remaining) :
    probingRounds (punchRounds net sock raddr rounds remaining round).2 = r + 1 - round := by
  induction remaining generalizing round with
  | zero => omega
  | succ k ih =>
    obtain ⟨p1, -, p3⟩ := sendProbes_all_sent net sock raddr round
      (fun i => hsend round i hle) (10 + round * 5) 0
    rcases hs : sendProbes net sock raddr round (10 + round * 5) 0 with ⟨res, io⟩
    rw [hs] at p1 p3
    simp only at p1 p3
    subst p1
    have hlisten : probingRounds
        [Event.udpSetReadDeadline sock (3 * Second), Event.udpRead sock 1024] = 1 := rfl
    by_cases heq : round = r
    · subst heq
      simp only [punchRounds, hs, hrecv]
      rw [probingRounds_append, p3, hlisten]
      omega
    · obtain ⟨e, he⟩ := hprev round (by omega)
      have hpause : probingRounds
          (if round < rounds then [Event.sleep (1 * Second)] else []) = 0 := by
        by_cases hlt2 : round < rounds <;> simp [hlt2, probingRounds]
      simp only [punchRounds, hs, he]
      rw [probingRounds_append, probingRounds_append, probingRounds_append, p3, hlisten, hpause,
        ih (round + 1) (by omega) (by omega)]
      omega

/-- C18: two runs of `attemptHolePunchingOnPort` on networks that give the same
answers except for the payload bytes (and length) of the datagrams received have the
same outcome: the same calls and the same result.  In particular, when in the first
run the socket is bound, the probes are sent, the listen windows before round `r`
time out and the window of round `r` receives a datagram from `src`, then the second
run receives in that window a datagram from `src` with some payload, and both runs
succeed in round `r` (after `r` listen windows) with the connection wrapping the same
socket, whose remote address is `src`. -/
theorem attemptHolePunchingOnPort_payload_blind (net1 net2 : Net) (raddr : UDPAddr)
    (timeout : Int) (hb : net1.bind = net2.bind) (hs : net1.send = net2.send)
    (hr : ∀ t r, (net1.recv t r).map Prod.fst = (net2.recv t r).map Prod.fst) :
    attemptHolePunchingOnPort net1 raddr timeout = attemptHolePunchingOnPort net2 raddr timeout ∧
    (∀ (sock r : Nat) (src : UDPAddr) (pl : List Nat), 1 ≤ r → r ≤ 3 →
      net1.bind raddr = .ok sock →
      (∀ r' i, r' ≤ r → net1.send raddr r' i = none) →
      (∀ r', r' < r → ∃ e, net1.recv raddr r' = .error e) →
      net1.recv raddr r = .ok (src, pl) →
        (∃ pl2, net2.recv raddr r = .ok (src, pl2)) ∧
        (attemptHolePunchingOnPort net1 raddr timeout).1 = .ok (Conn.udp sock src) ∧
        (attemptHolePunchingOnPort net2 raddr timeout).1 = .ok (Conn.udp sock src) ∧
        probingRounds (attemptHolePunchingOnPort net1 raddr timeout).2 = r ∧
        probingRounds (attemptHolePunchingOnPort net2 raddr timeout).2 = r) := by
  have heq : attemptHolePunchingOnPort net1 raddr timeout =
      attemptHolePunchingOnPort net2 raddr timeout := by
    unfold attemptHolePunchingOnPort
    rw [hb]
    cases hbind : net2.bind raddr with
    | error e => rfl
    | ok sock => simp only [punchRounds_congr net1 net2 sock raddr 3 hs hr 3 1]
  refine ⟨heq, ?_⟩
  intro sock r src pl h1 h3 hbind hsend hprev hrecv
  have hres : (attemptHolePunchingOnPort net1 raddr timeout).1 = .ok (Conn.udp sock src) := by
    have h := punchRounds_receives net1 sock raddr 3 r src pl hsend hprev hrecv 3 1 h1
      (by omega)
    simp only [attemptHolePunchingOnPort, hbind, h]
  have hcount : probingRounds (attemptHolePunchingOnPort net1 raddr timeout).2 = r := by
    have h := punchRounds_receives_rounds net1 sock raddr 3 r src pl hsend hprev hrecv 3 1 h1
      (by omega)
    have hcons : ∀ io : List Event,
        probingRounds (Event.listenUDP "0.0.0.0" 0 :: io) = probingRounds io := fun _ => rfl
    simp only [attemptHolePunchingOnPort, hbind, hcons, h]
    omega
  have hsecond : ∃ pl2, net2.recv raddr r = .ok (src, pl2) := by
    have hrr := hr raddr r
    rw [hrecv] at hrr
    cases h2r : net2.recv raddr r with
    | error e =>
      rw [h2r] at hrr
      simp [Except.map] at hrr
    | ok d2 =>
      obtain ⟨s2, p2⟩ := d2
      rw [h2r] at hrr
      simp only [Except.map, Except.ok.injEq] at hrr
      exact ⟨p2, by rw [hrr]⟩
  refine ⟨hsecond, hres, ?_, hcount, ?_⟩
  · rw [← heq]
    exact hres
  · rw [← heq]
    exact hcount

/-- C18 on the scenario of the specification with two different answers from port
30002 in round 2: both runs make the same calls and succeed in round 2 with the
connection on socket 30002. -/
theorem attemptHolePunchingOnPort_payload_blind_witness :
    scenarioNet.recv ⟨"198.51.100.9", 30002⟩ 2 =
      .ok (⟨"198.51.100.9", 30002⟩, bytes "HOLE_PUNCH_PROBE_R2_P0") ∧
    scenarioNetOtherPayload.recv ⟨"198.51.100.9", 30002⟩ 2 =
      .ok (⟨"198.51.100.9", 30002⟩, bytes "x") ∧
    attemptHolePunchingOnPort scenarioNet ⟨"198.51.100.9", 30002⟩ 0 =
      attemptHolePunchingOnPort scenarioNetOtherPayload ⟨"198.51.100.9", 30002⟩ 0 ∧
    (attemptHolePunchingOnPort scenarioNet ⟨"198.51.100.9", 30002⟩ 0).1 =
      .ok (Conn.udp 30002 ⟨"198.51.100.9", 30002⟩) ∧
    (attemptHolePunchingOnPort scenarioNetOtherPayload ⟨"198.51.100.9", 30002⟩ 0).1 =
      .ok (Conn.udp 30002 ⟨"198.51.100.9", 30002⟩) ∧
    probingRounds (attemptHolePunchingOnPort scenarioNet ⟨"198.51.100.9", 30002⟩ 0).2 = 2 ∧
    probingRounds
      (attemptHolePunchingOnPort scenarioNetOtherPayload ⟨"198.51.100.9", 30002⟩ 0).2 = 2 :=
  have hrel : ∀ t r, (scenarioNet.recv t r).map Prod.fst =
      (scenarioNetOtherPayload.recv t r).map Prod.fst := by
    intro t r
    simp only [scenarioNet, scenarioNetOtherPayload]
    split <;> rfl
  have h := attemptHolePunchingOnPort_payload_blind scenarioNet scenarioNetOtherPayload
    ⟨"198.51.100.9", 30002⟩ 0 rfl rfl hrel
  have hsucc := h.2 30002 2 ⟨"198.51.100.9", 30002⟩ (bytes "HOLE_PUNCH_PROBE_R2_P0")
    (by decide) (by decide) rfl (fun _ _ _ => rfl)
    (by
      intro r' hlt
      interval_cases r' <;> exact ⟨_, rfl⟩)
    rfl
  ⟨rfl, rfl, h.1, hsucc.2.1, hsucc.2.2.1, hsucc.2.2.2.1, hsucc.2.2.2.2⟩

/-- C19: the timeout handed to `performHolePunching` has no influence on it: for any
two values the calls made (candidate ports, rounds, probes, pauses, listen deadlines)
and the result are the same, also for each single attempt; the value appears as the
timeout of the dial of the direct-TCP and of the TCP-fallback strategy, and it is the
caller's number of seconds as a duration. -/
theorem performHolePunching_ignores_timeout (net : Net) (remoteAddr : String)
    (timeout1 timeout2 : Int) :
    performHolePunching net remoteAddr timeout1 = performHolePunching net remoteAddr timeout2 ∧
    (∀ raddr, attemptHolePunchingOnPort net raddr timeout1 =
      attemptHolePunchingOnPort net raddr timeout2) ∧
    (AttemptDirectConnection net remoteAddr timeout1).2.head? =
      some (Event.dialTCP remoteAddr timeout1) ∧
    (attemptTCPConnection net remoteAddr timeout1).2.head? =
      some (Event.dialTCP remoteAddr timeout1) ∧
    (∀ timeoutSec : Int, EstablishConnection net remoteAddr timeoutSec =
      EstablishConnectionWith
        (AttemptDirectConnection net remoteAddr (wrap64 (timeoutSec * Second)))
        (performHolePunching net remoteAddr 0)
        (attemptTCPConnection net remoteAddr (wrap64 (timeoutSec * Second)))) := by
  refine ⟨rfl, fun _ => rfl, ?_, ?_, fun _ => rfl⟩
  · cases hd : net.dial 0 remoteAddr timeout1 with
    | error e => simp only [AttemptDirectConnection, hd, List.head?_cons]
    | ok conn =>
      rcases hsh : sendHandshake conn with ⟨res, io⟩
      cases res <;> simp [AttemptDirectConnection, hd, hsh]
  · cases hd : net.dial 1 remoteAddr timeout1 with
    | error e => simp only [attemptTCPConnection, hd, List.head?_cons]
    | ok conn =>
      rcases hsh : sendHandshake conn with ⟨res, io⟩
      cases res <;> simp [attemptTCPConnection, hd, hsh]

/-! ## Where a successful result comes from -/

/-- The direct TCP strategy never succeeds. -/
theorem AttemptDirectConnection_fails (net : Net) (remoteAddr : String) (timeout : Int) :
    ∃ e, (AttemptDirectConnection net remoteAddr timeout).1 = .error e := by
  cases hd : net.dial 0 remoteAddr timeout with
  | error err =>
    exact ⟨Err.wrap "direct TCP connection failed" err, by simp only [AttemptDirectConnection, hd]⟩
  | ok conn =>
    obtain ⟨e, he⟩ := sendHandshake_fails conn
    rcases hs : sendHandshake conn with ⟨res, io⟩
    rw [hs] at he
    simp only at he
    subst he
    exact ⟨e, by simp only [AttemptDirectConnection, hd, hs]⟩

/-- The TCP fallback strategy never succeeds. -/
theorem attemptTCPConnection_fails (net : Net) (remoteAddr : String) (timeout : Int) :
    ∃ e, (attemptTCPConnection net remoteAddr timeout).1 = .error e := by
  cases hd : net.dial 1 remoteAddr timeout with
  | error err =>
    exact ⟨Err.wrap "TCP connection failed" err, by simp only [attemptTCPConnection, hd]⟩
  | ok conn =>
    obtain ⟨e, he⟩ := sendHandshake_fails conn
    rcases hs : sendHandshake conn with ⟨res, io⟩
    rw [hs] at he
    simp only at he
    subst he
    exact ⟨e, by simp only [attemptTCPConnection, hd, hs]⟩

/-- A connection returned by the round loop is the `UDPConn` wrapper of its socket. -/
theorem punchRounds_ok_udp (net : Net) (sock : Nat) (raddr : UDPAddr) (rounds : Nat)
    (remaining round : Nat) (conn : Conn)
    (h : (punchRounds net sock raddr rounds remaining round).1 = .ok conn) :
    ∃ peer, conn = Conn.udp sock peer := by
  induction remaining generalizing round with
  | zero => simp [punchRounds] at h
  | succ n ih =>
    rcases hs : sendProbes net sock raddr round (10 + round * 5) 0 with ⟨res, io⟩
    cases res with
    | some err => simp [punchRounds, hs] at h
    | none =>
      cases hr : net.recv raddr round with
      | ok dg =>
        obtain ⟨peer, pl⟩ := dg
        simp only [punchRounds, hs, hr, Except.ok.injEq] at h
        exact ⟨peer, h.symm⟩
      | error e =>
        simp only [punchRounds, hs, hr] at h
        exact ih (round + 1) h

/-- A connection returned by an attempt on a port is a `UDPConn` wrapper. -/
theorem attemptHolePunchingOnPort_ok_udp (net : Net) (raddr : UDPAddr) (timeout : Int)
    (conn : Conn) (h : (attemptHolePunchingOnPort net raddr timeout).1 = .ok conn) :
    ∃ sock peer, conn = Conn.udp sock peer := by
  cases hb : net.bind raddr with
  | error err => simp [attemptHolePunchingOnPort, hb] at h
  | ok sock =>
    simp only [attemptHolePunchingOnPort, hb] at h
    obtain ⟨peer, hp⟩ := punchRounds_ok_udp net sock raddr 3 3 1 conn h
    exact ⟨sock, peer, hp⟩

/-- A connection returned by the offset loop is one returned by an attempt. -/
theorem tryOffsets_ok (attempt : UDPAddr → Run) (raddr : UDPAddr) (offsets : List Int)
    (conn : Conn) (h : (tryOffsets attempt raddr offsets).1 = .ok conn) :
    ∃ target, (attempt target).1 = .ok conn := by
  induction offsets with
  | nil => simp [tryOffsets] at h
  | cons o rest ih =>
    by_cases hr : raddr.Port + o < 1024 ∨ raddr.Port + o > 65535
    · simp only [tryOffsets, if_pos hr] at h
      exact ih h
    · rcases ha : attempt ⟨raddr.IP, raddr.Port + o⟩ with ⟨res, io⟩
      cases res with
      | ok c =>
        simp only [tryOffsets, if_neg hr, ha, Except.ok.injEq] at h
        exact ⟨⟨raddr.IP, raddr.Port + o⟩, by rw [ha, h]⟩
      | error e =>
        simp only [tryOffsets, if_neg hr, ha] at h
        exact ih h

/-- A connection returned by the UDP strategy is a `UDPConn` wrapper. -/
theorem performHolePunching_ok_udp (net : Net) (remoteAddr : String) (timeout : Int)
    (conn : Conn) (h : (performHolePunching net remoteAddr timeout).1 = .ok conn) :
    ∃ sock peer, conn = Conn.udp sock peer := by
  cases hres : net.resolve remoteAddr with
  | error err => simp [performHolePunching, hres] at h
  | ok raddr =>
    simp only [performHolePunching, hres] at h
    obtain ⟨target, ht⟩ := tryOffsets_ok _ raddr portOffsets conn h
    exact attemptHolePunchingOnPort_ok_udp net target timeout conn ht

/-- C21: whenever `EstablishConnection` returns a connection without error, that
connection is the one returned by `performHolePunching`, a `UDPConn` wrapper of a UDP
socket, and both TCP strategies have failed before or would fail: `sendHandshake`
returns an error on every connection, since no reply has 21 bytes and equals the
20-byte token. -/
theorem EstablishConnection_ok_is_udp (net : Net) (remoteAddr : String) (timeoutSec : Int)
    (conn : Conn) (h : (EstablishConnection net remoteAddr timeoutSec).1 = .ok conn) :
    (performHolePunching net remoteAddr (wrap64 (timeoutSec * Second))).1 = .ok conn ∧
    (∃ sock peer, conn = Conn.udp sock peer) ∧
    (∃ e, (AttemptDirectConnection net remoteAddr (wrap64 (timeoutSec * Second))).1 = .error e) ∧
    (∃ e, (attemptTCPConnection net remoteAddr (wrap64 (timeoutSec * Second))).1 = .error e) ∧
    (∀ c : TCPConn, ∃ e, (sendHandshake c).1 = some e) ∧
    (∀ reply : List Nat, ¬ (reply.length = 21 ∧ reply = handshakeToken)) := by
  obtain ⟨e1, hd⟩ := AttemptDirectConnection_fails net remoteAddr (wrap64 (timeoutSec * Second))
  obtain ⟨e2, hf⟩ := attemptTCPConnection_fails net remoteAddr (wrap64 (timeoutSec * Second))
  have hp : (performHolePunching net remoteAddr (wrap64 (timeoutSec * Second))).1 = .ok conn := by
    rcases hdd : AttemptDirectConnection net remoteAddr (wrap64 (timeoutSec * Second)) with ⟨r1, io1⟩
    rw [hdd] at hd
    simp only at hd
    subst hd
    rcases hpp : performHolePunching net remoteAddr (wrap64 (timeoutSec * Second)) with ⟨r2, io2⟩
    cases r2 with
    | ok c =>
      simp only [EstablishConnection, EstablishConnectionWith, hdd, hpp, Except.ok.injEq] at h
      rw [h]
    | error e =>
      simp only [EstablishConnection, EstablishConnectionWith, hdd, hpp] at h
      rw [hf] at h
      cases h
  refine ⟨hp, performHolePunching_ok_udp net remoteAddr _ conn hp, ⟨e1, hd⟩, ⟨e2, hf⟩,
    sendHandshake_fails, ?_⟩
  intro reply hreply
  have h20 : handshakeToken.length = 20 := by decide
  rw [← hreply.2, hreply.1] at h20
  omega

/-- C21 on the scenario of the specification with a peer that echoes the token on
every TCP connection: the result is the `UDPConn` on the socket probing port 30002. -/
theorem EstablishConnection_ok_is_udp_witness :
    scenarioNetEchoingPeer.dial 0 "198.51.100.9:30000" 30000000000 = .ok echoingPeer ∧
    (EstablishConnection scenarioNetEchoingPeer "198.51.100.9:30000" 30).1 =
      .ok (Conn.udp 30002 ⟨"198.51.100.9", 30002⟩) ∧
    (performHolePunching scenarioNetEchoingPeer "198.51.100.9:30000"
      (wrap64 (30 * Second))).1 = .ok (Conn.udp 30002 ⟨"198.51.100.9", 30002⟩) :=
  have h : (EstablishConnection scenarioNetEchoingPeer "198.51.100.9:30000" 30).1 =
      .ok (Conn.udp 30002 ⟨"198.51.100.9", 30002⟩) := by
    set_option maxRecDepth 100000 in rfl
  ⟨rfl, h, (EstablishConnection_ok_is_udp scenarioNetEchoingPeer "198.51.100.9:30000" 30
    (Conn.udp 30002 ⟨"198.51.100.9", 30002⟩) h).1⟩

end FoxHole
